import Mathlib

/-!
Verification development for the Roche orbital visualizer core
(`src/game.cpp`).  The camera state machine, the entity-hierarchy state
resolution, the calendar formatter and the key-edge detector are embedded
shallowly: floating-point quantities become real numbers, `glm` vectors
become a small `Vec3`/`Vec2` record type, the orientation matrix produced
by `lookAt` is represented by its forward unit vector (the matrix is a
function of that vector and the fixed up axis), and the per-frame methods
become pure state-transition functions.
-/

namespace Roche

/-! ## Small vector library (embedding of glm vec2/vec3/dvec3) -/

/-- Three-component real vector (embeds glm `vec3`/`dvec3`). -/
@[ext]
structure Vec3 where
  x : ℝ
  y : ℝ
  z : ℝ

/-- Two-component real vector (embeds glm `vec2`). -/
@[ext]
structure Vec2 where
  x : ℝ
  y : ℝ

noncomputable instance : Add Vec3 := ⟨fun a b => ⟨a.x + b.x, a.y + b.y, a.z + b.z⟩⟩

noncomputable instance : Sub Vec3 := ⟨fun a b => ⟨a.x - b.x, a.y - b.y, a.z - b.z⟩⟩

noncomputable instance : Neg Vec3 := ⟨fun a => ⟨-a.x, -a.y, -a.z⟩⟩

noncomputable instance : SMul ℝ Vec3 := ⟨fun c a => ⟨c * a.x, c * a.y, c * a.z⟩⟩

instance : Zero Vec3 := ⟨⟨0, 0, 0⟩⟩

noncomputable instance : Add Vec2 := ⟨fun a b => ⟨a.x + b.x, a.y + b.y⟩⟩

noncomputable instance : SMul ℝ Vec2 := ⟨fun c a => ⟨c * a.x, c * a.y⟩⟩

instance : Zero Vec2 := ⟨⟨0, 0⟩⟩

@[simp]
theorem Vec3.add_x (a b : Vec3) : (a + b).x = a.x + b.x := rfl

@[simp]
theorem Vec3.add_y (a b : Vec3) : (a + b).y = a.y + b.y := rfl

@[simp]
theorem Vec3.add_z (a b : Vec3) : (a + b).z = a.z + b.z := rfl

@[simp]
theorem Vec3.sub_x (a b : Vec3) : (a - b).x = a.x - b.x := rfl

@[simp]
theorem Vec3.sub_y (a b : Vec3) : (a - b).y = a.y - b.y := rfl

@[simp]
theorem Vec3.sub_z (a b : Vec3) : (a - b).z = a.z - b.z := rfl

@[simp]
theorem Vec3.neg_x (a : Vec3) : (-a).x = -a.x := rfl

@[simp]
theorem Vec3.neg_y (a : Vec3) : (-a).y = -a.y := rfl

@[simp]
theorem Vec3.neg_z (a : Vec3) : (-a).z = -a.z := rfl

@[simp]
theorem Vec3.smul_x (c : ℝ) (a : Vec3) : (c • a).x = c * a.x := rfl

@[simp]
theorem Vec3.smul_y (c : ℝ) (a : Vec3) : (c • a).y = c * a.y := rfl

@[simp]
theorem Vec3.smul_z (c : ℝ) (a : Vec3) : (c • a).z = c * a.z := rfl

@[simp]
theorem Vec3.zero_x : (0 : Vec3).x = 0 := rfl

@[simp]
theorem Vec3.zero_y : (0 : Vec3).y = 0 := rfl

@[simp]
theorem Vec3.zero_z : (0 : Vec3).z = 0 := rfl

@[simp]
theorem Vec2.fst_add (a b : Vec2) : (a + b).x = a.x + b.x := rfl

@[simp]
theorem Vec2.snd_add (a b : Vec2) : (a + b).y = a.y + b.y := rfl

@[simp]
theorem Vec2.fst_smul (c : ℝ) (a : Vec2) : (c • a).x = c * a.x := rfl

@[simp]
theorem Vec2.snd_smul (c : ℝ) (a : Vec2) : (c • a).y = c * a.y := rfl

@[simp]
theorem Vec2.fst_zero : (0 : Vec2).x = 0 := rfl

@[simp]
theorem Vec2.snd_zero : (0 : Vec2).y = 0 := rfl

/-- Dot product of two vectors (embeds glm `dot`). -/
noncomputable def Vec3.dot (a b : Vec3) : ℝ := a.x * b.x + a.y * b.y + a.z * b.z

/-- Euclidean length of a vector (embeds glm `length`). -/
noncomputable def Vec3.norm (a : Vec3) : ℝ := Real.sqrt (a.dot a)

/-- Unit vector in the direction of `a` (embeds glm `normalize`; on the zero
vector this yields the zero vector, glm would divide by zero there). -/
noncomputable def Vec3.normalize (a : Vec3) : Vec3 := (1 / a.norm) • a

theorem Vec3.dot_self_nonneg (a : Vec3) : 0 ≤ a.dot a := by
  simp only [Vec3.dot]
  nlinarith [sq_nonneg a.x, sq_nonneg a.y, sq_nonneg a.z]

theorem Vec3.norm_nonneg (a : Vec3) : 0 ≤ a.norm := Real.sqrt_nonneg _

theorem Vec3.norm_smul (c : ℝ) (a : Vec3) : (c • a).norm = |c| * a.norm := by
  simp only [Vec3.norm, Vec3.dot, Vec3.smul_x, Vec3.smul_y, Vec3.smul_z]
  rw [show c * a.x * (c * a.x) + c * a.y * (c * a.y) + c * a.z * (c * a.z)
      = c ^ 2 * (a.x * a.x + a.y * a.y + a.z * a.z) by ring]
  rw [Real.sqrt_mul (sq_nonneg c), Real.sqrt_sq_eq_abs]

theorem Vec3.norm_eq_zero_iff (a : Vec3) : a.norm = 0 ↔ a = 0 := by
  constructor
  · intro h
    have hd : a.dot a = 0 :=
      le_antisymm (Real.sqrt_eq_zero'.mp h) a.dot_self_nonneg
    simp only [Vec3.dot] at hd
    have hx : a.x = 0 := by nlinarith [sq_nonneg a.x, sq_nonneg a.y, sq_nonneg a.z]
    have hy : a.y = 0 := by nlinarith [sq_nonneg a.x, sq_nonneg a.y, sq_nonneg a.z]
    have hz : a.z = 0 := by nlinarith [sq_nonneg a.x, sq_nonneg a.y, sq_nonneg a.z]
    ext <;> simp [hx, hy, hz]
  · intro h
    subst h
    simp [Vec3.norm, Vec3.dot]

theorem Vec3.norm_pos_of_ne_zero {a : Vec3} (h : a ≠ 0) : 0 < a.norm := by
  rcases lt_or_eq_of_le a.norm_nonneg with h1 | h1
  · exact h1
  · exact absurd (a.norm_eq_zero_iff.mp h1.symm) h

theorem Vec3.norm_smul_normalize (a : Vec3) (h : a ≠ 0) : a.norm • a.normalize = a := by
  have hn : a.norm ≠ 0 := ne_of_gt (Vec3.norm_pos_of_ne_zero h)
  simp only [Vec3.normalize]
  ext <;> simp <;> field_simp

theorem Vec3.norm_normalize (a : Vec3) (h : a ≠ 0) : a.normalize.norm = 1 := by
  have hn : 0 < a.norm := Vec3.norm_pos_of_ne_zero h
  simp only [Vec3.normalize]
  rw [Vec3.norm_smul]
  rw [abs_of_pos (by positivity)]
  field_simp

/-! ## Scalar helpers shared by the camera code -/

/-- Embeds `polarToCartesian` from game.cpp: unit direction from the polar
angle pair (azimuth in `x`, elevation in `y`). -/
noncomputable def polarToCartesian (p : Vec2) : Vec3 :=
  ⟨Real.cos p.x * Real.cos p.y, Real.sin p.x * Real.cos p.y, Real.sin p.y⟩

theorem polarToCartesian_norm (p : Vec2) : (polarToCartesian p).norm = 1 := by
  simp only [polarToCartesian, Vec3.norm, Vec3.dot]
  rw [show Real.cos p.x * Real.cos p.y * (Real.cos p.x * Real.cos p.y) +
      Real.sin p.x * Real.cos p.y * (Real.sin p.x * Real.cos p.y) +
      Real.sin p.y * Real.sin p.y
      = (Real.cos p.x ^ 2 + Real.sin p.x ^ 2) * Real.cos p.y ^ 2 + Real.sin p.y ^ 2 by ring]
  rw [Real.cos_sq_add_sin_sq, one_mul, Real.cos_sq_add_sin_sq]
  exact Real.sqrt_one

/-- Two-argument arctangent, as used through `atan2` in game.cpp.  Only its
type matters for the claims settled here; the camera theorems never unfold
it. -/
noncomputable def atan2 (y x : ℝ) : ℝ :=
  if 0 < x then Real.arctan (y / x)
  else if x < 0 ∧ 0 ≤ y then Real.arctan (y / x) + Real.pi
  else if x < 0 then Real.arctan (y / x) - Real.pi
  else if 0 < y then Real.pi / 2
  else if y < 0 then -(Real.pi / 2)
  else 0

/-- Embeds glm `clamp(x, lo, hi)`. -/
noncomputable def clampR (v lo hi : ℝ) : ℝ := min (max v lo) hi

/-- Embeds `ease` from game.cpp: the quintic smoothstep 6t^5 - 15t^4 + 10t^3. -/
noncomputable def ease (t : ℝ) : ℝ := 6 * t ^ 5 - 15 * t ^ 4 + 10 * t ^ 3

/-- Embeds `ease2` from game.cpp with a natural exponent: the power-ratio
ease t^a / (t^a + (1-t)^a); the source calls it with alpha = 4. -/
noncomputable def ease2 (t : ℝ) (a : ℕ) : ℝ := t ^ a / (t ^ a + (1 - t) ^ a)

theorem ease_mem_unit {t : ℝ} (h0 : 0 ≤ t) (h1 : t ≤ 1) : 0 ≤ ease t ∧ ease t ≤ 1 := by
  constructor
  · simp only [ease]
    nlinarith [pow_nonneg h0 3, sq_nonneg (t - 1), sq_nonneg t]
  · simp only [ease]
    nlinarith [pow_nonneg (by linarith : (0:ℝ) ≤ 1 - t) 3, sq_nonneg t, sq_nonneg (1 - t),
      mul_nonneg (mul_nonneg h0 h0) (by linarith : (0:ℝ) ≤ 1 - t)]

theorem ease2_mem_unit {t : ℝ} (h0 : 0 ≤ t) (h1 : t ≤ 1) :
    0 ≤ ease2 t 4 ∧ ease2 t 4 ≤ 1 := by
  rcases eq_or_lt_of_le h0 with h | h
  · subst h
    norm_num [ease2]
  · have ht4 : 0 < t ^ 4 := by positivity
    have h1t : 0 ≤ (1 - t) ^ 4 := by positivity
    have hden : 0 < t ^ 4 + (1 - t) ^ 4 := by linarith
    constructor
    · exact div_nonneg (le_of_lt ht4) (le_of_lt hden)
    · rw [ease2, div_le_one hden]
      linarith

/-! ## Calendar formatting (getFormattedTime, game.cpp lines 453-517)

The C++ code uses `int`/`long` arithmetic whose `/` and `%` truncate toward
zero; these are embedded with `Int.tdiv`/`Int.tmod`.  The unbounded `while`
loops are embedded as fuel recursions whose fuel provably exceeds the number
of iterations the C++ loop performs. -/

/-- Embeds `isLeapYear` from game.cpp (the standard Gregorian rule). -/
def isLeapYear (y : ℤ) : Bool :=
  ((Int.tmod y 4 == 0) && !(Int.tmod y 100 == 0)) || (Int.tmod y 400 == 0)

/-- Number of days of year `y` (365, or 366 on leap years), as the C++ year
loop computes it. -/
def yearLen (y : ℤ) : ℤ := 365 + (if isLeapYear y then 1 else 0)

/-- Embeds the year-finding `while` loop of `getFormattedTime`: starting from
year 2017 and day offset `i = 0`, consume whole years while they fit in
`days`.  Structural fuel recursion; the loop body runs at most `days` times
because each iteration advances `i` by at least 365. -/
def findYearAux : ℕ → ℤ → ℤ → ℤ → ℤ × ℤ
  | 0, y, i, _ => (y, i)
  | fuel + 1, y, i, days =>
    if i + yearLen y ≤ days then findYearAux fuel (y + 1) (i + yearLen y) days
    else (y, i)

/-- The year loop of `getFormattedTime`: returns (year, day offset of Jan 1 of
that year counted from Jan 1 2017). -/
def findYear (days : ℤ) : ℤ × ℤ := findYearAux (days.toNat + 1) 2017 0 days

/-- Embeds the `monthLength` table of `getFormattedTime`. -/
def monthLengths (y : ℤ) : List ℤ :=
  [31, 28 + (if isLeapYear y then 1 else 0), 31, 30, 31, 30, 31, 31, 30, 31, 30, 31]

/-- Embeds the month-finding `while` loop of `getFormattedTime`: consume month
lengths while they fit in the remaining day count; returns (month index,
zero-based day within the month). -/
def splitMonths : List ℤ → ℤ → ℕ × ℤ
  | [], rem => (0, rem)
  | len :: ls, rem =>
    if len ≤ rem then
      let r := splitMonths ls (rem - len)
      (r.1 + 1, r.2)
    else (0, rem)

/-- Embeds the `monthNames` table of `getFormattedTime`. -/
def monthNames : List String :=
  ["Jan", "Feb", "Mar", "Apr", "May", "Jun", "Jul", "Aug", "Sep", "Oct", "Nov", "Dec"]

/-- Embeds `format` from game.cpp: two characters obtained by adding the
decimal digits of `value` to the character `0` (ASCII 48), exactly as the C++
char arithmetic does it, including its garbage output on negative input. -/
def formatTwo (v : ℤ) : String :=
  String.mk [Char.ofNat (48 + Int.tdiv v 10).toNat, Char.ofNat (48 + Int.tmod v 10).toNat]

/-- Embeds `getFormattedTime` from game.cpp. -/
def getFormattedTime (e : ℤ) : String :=
  let seconds := Int.tmod e 60
  let minutes := Int.tmod (Int.tdiv e 60) 60
  let hours := Int.tmod (Int.tdiv e 3600) 24
  let days := Int.tdiv e 86400
  let yr := findYear days
  let remainingDays := days - yr.2
  let mo := splitMonths (monthLengths yr.1) remainingDays
  monthNames.getD mo.1 "" ++ ". " ++ toString (mo.2 + 1) ++ " " ++ toString yr.1 ++ " " ++
    formatTwo hours ++ ":" ++ formatTwo minutes ++ ":" ++ formatTwo seconds ++ " UTC"

/-! ### Specification-side calendar

Modelled from the spec: "epoch is seconds since a fixed reference instant;
output format is `<Mon>. <day> <year> HH:MM:SS UTC` where day count is
converted via a proleptic Gregorian calendar with standard leap-year rule
(divisible by 4, not by 100 unless by 400), month lengths
31,28/29,31,30,31,30,31,31,30,31,30,31, zero-padded two-digit
hour/minute/second".  The reference instant is Jan 1 2017 00:00:00 UTC.
Clock fields use floor division so that every epoch, negative ones
included, maps to a genuine calendar instant; the year walk runs in both
directions (proleptic). -/

/-- Spec-side year walk: shift `days` into the range [0, length of year), in
either direction, starting from 2017. -/
def specYearAux : ℕ → ℤ → ℤ → ℤ × ℤ
  | 0, y, d => (y, d)
  | fuel + 1, y, d =>
    if d < 0 then specYearAux fuel (y - 1) (d + yearLen (y - 1))
    else if yearLen y ≤ d then specYearAux fuel (y + 1) (d - yearLen y)
    else (y, d)

/-- Spec-side date of a (possibly negative) day count since Jan 1 2017:
(year, month index, day of month). -/
def specDate (days : ℤ) : ℤ × ℕ × ℤ :=
  let yr := specYearAux (days.natAbs + 1) 2017 days
  let mo := splitMonths (monthLengths yr.1) yr.2
  (yr.1, mo.1, mo.2 + 1)

/-- Spec-side zero padding of a two-digit field. -/
def specPad2 (v : ℤ) : String := (if v < 10 then "0" else "") ++ toString v

/-- Spec-side calendar string, modelled from the spec sentence quoted above. -/
def specFormattedTime (e : ℤ) : String :=
  let seconds := Int.emod e 60
  let minutes := Int.emod (Int.ediv e 60) 60
  let hours := Int.emod (Int.ediv e 3600) 24
  let days := Int.ediv e 86400
  let d := specDate days
  monthNames.getD d.2.1 "" ++ ". " ++ toString d.2.2 ++ " " ++ toString d.1 ++ " " ++
    specPad2 hours ++ ":" ++ specPad2 minutes ++ ":" ++ specPad2 seconds ++ " UTC"

/-! ### Calendar lemmas -/

/-- Day offset of Jan 1 of year `y` counted from Jan 1 2017. -/
def yearsSum (y : ℤ) : ℤ := ∑ k ∈ Finset.range (y - 2017).toNat, yearLen (2017 + k)

theorem yearLen_ge (y : ℤ) : 365 ≤ yearLen y := by
  unfold yearLen
  split <;> norm_num

theorem yearsSum_succ {y : ℤ} (h : 2017 ≤ y) : yearsSum (y + 1) = yearsSum y + yearLen y := by
  unfold yearsSum
  have h1 : (y + 1 - 2017).toNat = (y - 2017).toNat + 1 := by omega
  rw [h1, Finset.sum_range_succ]
  congr 1
  congr 1
  omega

theorem yearsSum_mono {a b : ℤ} (ha : 2017 ≤ a) (hab : a ≤ b) : yearsSum a ≤ yearsSum b := by
  refine @Int.le_induction (fun n => yearsSum a ≤ yearsSum n) a (le_refl _) ?_ b hab
  intro n hn ih
  have h2017n : 2017 ≤ n := le_trans ha hn
  rw [yearsSum_succ h2017n]
  have := yearLen_ge n
  linarith

theorem yearsSum_add_len_le {a b : ℤ} (ha : 2017 ≤ a) (hab : a < b) :
    yearsSum a + yearLen a ≤ yearsSum b := by
  have h1 : yearsSum (a + 1) = yearsSum a + yearLen a := yearsSum_succ ha
  have h2 : yearsSum (a + 1) ≤ yearsSum b := yearsSum_mono (by omega) (by omega)
  linarith

/-- Both year walks land on the same (year, remainder) because the
characterizing interval condition pins them down uniquely. -/
theorem charYear_unique {days y1 r1 y2 r2 : ℤ}
    (a1 : 2017 ≤ y1) (b1 : 0 ≤ r1) (c1 : r1 < yearLen y1) (d1 : days = yearsSum y1 + r1)
    (a2 : 2017 ≤ y2) (b2 : 0 ≤ r2) (c2 : r2 < yearLen y2) (d2 : days = yearsSum y2 + r2) :
    y1 = y2 ∧ r1 = r2 := by
  have hy : y1 = y2 := by
    rcases lt_trichotomy y1 y2 with h | h | h
    · exfalso
      have := yearsSum_add_len_le a1 h
      linarith
    · exact h
    · exfalso
      have := yearsSum_add_len_le a2 h
      linarith
  subst hy
  exact ⟨rfl, by linarith⟩

theorem findYearAux_char : ∀ (fuel : ℕ) (y i days : ℤ), 2017 ≤ y → i = yearsSum y →
    i ≤ days → days < i + fuel →
    2017 ≤ (findYearAux fuel y i days).1 ∧
    (findYearAux fuel y i days).2 = yearsSum (findYearAux fuel y i days).1 ∧
    (findYearAux fuel y i days).2 ≤ days ∧
    days < (findYearAux fuel y i days).2 + yearLen (findYearAux fuel y i days).1 := by
  intro fuel
  induction fuel with
  | zero =>
    intro y i days _ _ hle hlt
    exfalso
    simp only [Nat.cast_zero] at hlt
    linarith
  | succ n ih =>
    intro y i days hy hi hle hlt
    rw [findYearAux]
    split
    · rename_i hcond
      refine ih (y + 1) (i + yearLen y) days (by omega) ?_ hcond ?_
      · rw [yearsSum_succ hy, hi]
      · have := yearLen_ge y
        push_cast at hlt ⊢
        linarith
    · rename_i hcond
      push_neg at hcond
      exact ⟨hy, hi, hle, hcond⟩

theorem findYear_char {days : ℤ} (h : 0 ≤ days) :
    2017 ≤ (findYear days).1 ∧
    (findYear days).2 = yearsSum (findYear days).1 ∧
    (findYear days).2 ≤ days ∧
    days < (findYear days).2 + yearLen (findYear days).1 := by
  unfold findYear
  refine findYearAux_char (days.toNat + 1) 2017 0 days (le_refl _) ?_ h ?_
  · unfold yearsSum
    norm_num
  · push_cast
    omega

theorem specYearAux_char : ∀ (fuel : ℕ) (y d : ℤ), 2017 ≤ y → 0 ≤ d → d < fuel →
    2017 ≤ (specYearAux fuel y d).1 ∧
    0 ≤ (specYearAux fuel y d).2 ∧
    (specYearAux fuel y d).2 < yearLen (specYearAux fuel y d).1 ∧
    yearsSum (specYearAux fuel y d).1 + (specYearAux fuel y d).2 = yearsSum y + d := by
  intro fuel
  induction fuel with
  | zero =>
    intro y d _ h0 hlt
    exfalso
    simp only [Nat.cast_zero] at hlt
    linarith
  | succ n ih =>
    intro y d hy h0 hlt
    rw [specYearAux]
    rw [if_neg (by linarith)]
    split
    · rename_i hcond
      have hlen := yearLen_ge y
      have h1 := ih (y + 1) (d - yearLen y) (by omega) (by linarith) (by push_cast at hlt ⊢; linarith)
      refine ⟨h1.1, h1.2.1, h1.2.2.1, ?_⟩
      rw [h1.2.2.2, yearsSum_succ hy]
      ring
    · rename_i hcond
      push_neg at hcond
      exact ⟨hy, h0, hcond, rfl⟩

theorem specDate_eq_findYear {days : ℤ} (h : 0 ≤ days) :
    (specYearAux (days.natAbs + 1) 2017 days).1 = (findYear days).1 ∧
    (specYearAux (days.natAbs + 1) 2017 days).2 = days - (findYear days).2 := by
  have hspec := specYearAux_char (days.natAbs + 1) 2017 days (le_refl _) h
    (by omega)
  have hcode := findYear_char h
  have hzero : yearsSum 2017 = 0 := by
    unfold yearsSum
    norm_num
  rw [hzero, zero_add] at hspec
  have := charYear_unique hspec.1 hspec.2.1 hspec.2.2.1 hspec.2.2.2.symm
    hcode.1 (by linarith [hcode.2.2.1, hcode.2.1] : (0:ℤ) ≤ days - (findYear days).2)
    (by linarith [hcode.2.2.2] : days - (findYear days).2 < yearLen (findYear days).1)
    (by linarith [hcode.2.1] : days = yearsSum (findYear days).1 + (days - (findYear days).2))
  exact this

theorem tdiv_eq_ediv_of_nonneg {a b : ℤ} (ha : 0 ≤ a) (hb : 0 ≤ b) :
    Int.tdiv a b = Int.ediv a b := by
  lift a to ℕ using ha
  lift b to ℕ using hb
  rfl

theorem tmod_eq_emod_of_nonneg {a b : ℤ} (ha : 0 ≤ a) (hb : 0 ≤ b) :
    Int.tmod a b = Int.emod a b := by
  lift a to ℕ using ha
  lift b to ℕ using hb
  rfl

theorem tdiv_nonneg_of_nonneg {a b : ℤ} (ha : 0 ≤ a) (hb : 0 ≤ b) : 0 ≤ Int.tdiv a b := by
  lift a to ℕ using ha
  lift b to ℕ using hb
  exact Int.ofNat_nonneg _

theorem formatTwo_eq_specPad2_nat : ∀ n : ℕ, n < 60 → formatTwo (n : ℤ) = specPad2 (n : ℤ) := by
  decide

theorem formatTwo_eq_specPad2 {v : ℤ} (h0 : 0 ≤ v) (h1 : v < 60) :
    formatTwo v = specPad2 v := by
  have hv : ((v.toNat : ℤ)) = v := Int.toNat_of_nonneg h0
  rw [← hv]
  exact formatTwo_eq_specPad2_nat v.toNat (by omega)

/-- C7 counterexample: at the negative epoch -1 second the code prints
"Jan. 1 2017 00:00:0/ UTC" (the seconds field underflows into the ASCII
character before the digit zero), while the proleptic Gregorian conversion
demanded by the claim yields "Dec. 31 2016 23:59:59 UTC"; so the claim is
false for "every epoch value". -/
theorem c7_counterexample : getFormattedTime (-1) ≠ specFormattedTime (-1) := by
  decide

/-- C7 (amended): for every nonnegative epoch, `getFormattedTime` agrees with
the proleptic-Gregorian spec-side formatter (standard leap rule, the listed
month lengths, zero-padded clock fields); in particular epoch 0 yields the
reference-instant string, 365 days advances into 2018 with day and month
reset, and Feb 2020 has 29 days. -/
theorem c7_calendar :
    (∀ e : ℤ, 0 ≤ e → getFormattedTime e = specFormattedTime e) ∧
    getFormattedTime 0 = "Jan. 1 2017 00:00:00 UTC" ∧
    getFormattedTime (365 * 86400) = "Jan. 1 2018 00:00:00 UTC" ∧
    getFormattedTime (1154 * 86400) = "Feb. 29 2020 00:00:00 UTC" := by
  refine ⟨?_, by decide, by decide, by decide⟩
  intro e he
  have hsec : Int.tmod e 60 = Int.emod e 60 := tmod_eq_emod_of_nonneg he (by norm_num)
  have hdt60 : Int.tdiv e 60 = Int.ediv e 60 := tdiv_eq_ediv_of_nonneg he (by norm_num)
  have hdt3600 : Int.tdiv e 3600 = Int.ediv e 3600 := tdiv_eq_ediv_of_nonneg he (by norm_num)
  have hmin : Int.tmod (Int.tdiv e 60) 60 = Int.emod (Int.ediv e 60) 60 := by
    rw [hdt60]
    exact tmod_eq_emod_of_nonneg (Int.ediv_nonneg he (by norm_num)) (by norm_num)
  have hhr : Int.tmod (Int.tdiv e 3600) 24 = Int.emod (Int.ediv e 3600) 24 := by
    rw [hdt3600]
    exact tmod_eq_emod_of_nonneg (Int.ediv_nonneg he (by norm_num)) (by norm_num)
  have hdays : Int.tdiv e 86400 = Int.ediv e 86400 := tdiv_eq_ediv_of_nonneg he (by norm_num)
  have hds : 0 ≤ Int.ediv e 86400 := Int.ediv_nonneg he (by norm_num)
  obtain ⟨hy, hr⟩ := specDate_eq_findYear hds
  have hbsec : formatTwo (Int.emod e 60) = specPad2 (Int.emod e 60) :=
    formatTwo_eq_specPad2 (Int.emod_nonneg e (by norm_num))
      (Int.emod_lt_of_pos e (by norm_num))
  have hbmin : formatTwo (Int.emod (Int.ediv e 60) 60) = specPad2 (Int.emod (Int.ediv e 60) 60) :=
    formatTwo_eq_specPad2 (Int.emod_nonneg _ (by norm_num))
      (Int.emod_lt_of_pos _ (by norm_num))
  have hbhr : formatTwo (Int.emod (Int.ediv e 3600) 24) =
      specPad2 (Int.emod (Int.ediv e 3600) 24) :=
    formatTwo_eq_specPad2 (Int.emod_nonneg _ (by norm_num))
      (lt_trans (Int.emod_lt_of_pos _ (by norm_num)) (by norm_num))
  simp only [getFormattedTime, specFormattedTime, specDate]
  rw [hsec, hmin, hhr, hdays, hy, hr, hbsec, hbmin, hbhr]

/-- C7 witness: the amended theorem applied at epoch 86400. -/
theorem c7_calendar_witness :
    (0:ℤ) ≤ 86400 ∧ getFormattedTime 86400 = specFormattedTime 86400 :=
  ⟨by norm_num, c7_calendar.1 86400 (by norm_num)⟩

/-! ## Entity hierarchy

The `EntityCollection`/`EntityHandle` implementation is not under `src/`;
only `game.cpp` (with a commented-out copy of the parent/children walkers)
is.  Modelled from the spec: entities are an arena indexed by natural
numbers 0..n-1, `parent` resolves to an index or nothing for roots,
`getAllParents` is the ascending ancestor chain (immediate parent first),
`getAllChildren` is the recursive descendant list (direct children first,
then the deeper descendants of each child, exactly as the commented-out
source walkers compute them), and `isBody` marks entities that carry a
physical Model.  Acyclicity of the forest is captured by requiring parents
to have smaller indices (any forest can be indexed this way). -/

/-- Keplerian orbit elements; all angles in radians (spec section 3). -/
structure Orbit where
  ecc : ℝ
  sma : ℝ
  inc : ℝ
  lan : ℝ
  arg : ℝ
  period : ℝ
  m0 : ℝ

/-- Planet parameters for the clouds attachment; only the period matters to
the state computation. -/
structure Clouds where
  period : ℝ

/-- The resolved entity hierarchy: an arena of `n` entities with parent
links, body markers, optional orbits and optional cloud layers. -/
structure Sys where
  n : ℕ
  parent : ℕ → Option ℕ
  isBody : ℕ → Bool
  orbit : ℕ → Option Orbit
  clouds : ℕ → Option Clouds
  parent_lt : ∀ i p, parent i = some p → p < i

/-- Ancestor chain with explicit fuel; fuel `i + 1` always suffices because
parent indices strictly decrease. -/
def allParentsAux (S : Sys) : ℕ → ℕ → List ℕ
  | 0, _ => []
  | fuel + 1, i =>
    match S.parent i with
    | none => []
    | some p => p :: allParentsAux S fuel p

/-- Embeds `EntityHandle::getAllParents`: the ascending ancestor chain,
immediate parent first, empty for roots. -/
def allParents (S : Sys) (i : ℕ) : List ℕ := allParentsAux S (i + 1) i

theorem allParentsAux_congr (S : Sys) :
    ∀ (f1 : ℕ) (i f2 : ℕ), i < f1 → i < f2 →
      allParentsAux S f1 i = allParentsAux S f2 i := by
  intro f1
  induction f1 with
  | zero => intro i f2 h1 _; omega
  | succ k ih =>
    intro i f2 h1 h2
    rcases Nat.exists_eq_succ_of_ne_zero (by omega : f2 ≠ 0) with ⟨m, rfl⟩
    rw [allParentsAux, allParentsAux]
    rcases hpar : S.parent i with _ | p
    · rfl
    · have hp := S.parent_lt i p hpar
      show p :: allParentsAux S k p = p :: allParentsAux S m p
      rw [ih p m (by omega) (by omega)]

theorem allParents_eq_cons {S : Sys} {i p : ℕ} (h : S.parent i = some p) :
    allParents S i = p :: allParents S p := by
  unfold allParents
  rw [allParentsAux, h]
  have hp := S.parent_lt i p h
  show p :: allParentsAux S i p = p :: allParentsAux S (p + 1) p
  rw [allParentsAux_congr S i p (p + 1) (by omega) (by omega)]

theorem allParents_eq_nil {S : Sys} {i : ℕ} (h : S.parent i = none) :
    allParents S i = [] := by
  unfold allParents
  rw [allParentsAux, h]

/-- Embeds the `getChildren` scan: all indices whose parent is `i`, in load
order. -/
def childrenOf (S : Sys) (i : ℕ) : List ℕ :=
  (List.range S.n).filter (fun j => S.parent j == some i)

/-- Recursive descendant walk with explicit fuel; fuel `S.n` always suffices
because child indices strictly increase and stay below `S.n`. -/
def allChildrenAux (S : Sys) : ℕ → ℕ → List ℕ
  | 0, _ => []
  | fuel + 1, i => childrenOf S i ++ (childrenOf S i).flatMap (allChildrenAux S fuel)

/-- Embeds `EntityHandle::getAllChildren`: direct children first, then the
recursive descendants of each child, as the commented-out source walker
builds the list. -/
def allChildren (S : Sys) (i : ℕ) : List ℕ := allChildrenAux S S.n i

/-- Embeds `Game::getTexLoadBodies`: the focused entity, then its ancestor
chain, then all recursive descendants of its immediate parent, filtered to
body-bearing entities.  On a root the source would call `getAllChildren` on
an invalid handle (undefined behavior); that case is embedded as the empty
sibling list and every theorem below assumes a parent exists. -/
def getTexLoadBodies (S : Sys) (f : ℕ) : List ℕ :=
  (([f] ++ allParents S f) ++
    (match S.parent f with
     | some p => allChildren S p
     | none => [])).filter (fun x => S.isBody x)

/-- Concrete four-entity hierarchy: entity 0 is a root body, entities 1, 2, 3
are body children of 0.  Focused entity 1 has one parent and two siblings,
matching the spec's own test vignette for the texture-load list. -/
def texHier : Sys where
  n := 4
  parent := fun i => if i = 0 then none else if i < 4 then some 0 else none
  isBody := fun _ => true
  orbit := fun _ => none
  clouds := fun _ => none
  parent_lt := by
    intro i p h
    by_cases h0 : i = 0
    · simp [h0] at h
    · by_cases h4 : i < 4
      · simp [h0, h4] at h
        omega
      · simp [h0, h4] at h

/-- C3 counterexample: in `texHier`, focused body 1 with parent 0 and
siblings 2 and 3, the returned list is [1, 0, 1, 2, 3] — the focused body
appears twice (once by itself and once among the parent's descendants), so
the list is not duplicate-free as the claim states. -/
theorem c3_counterexample : ¬ (getTexLoadBodies texHier 1).Nodup := by
  decide

/-- C3 (amended): `getTexLoadBodies` returns exactly the focused body, its
ancestors, and all recursive descendants of the focused body's immediate
parent (the siblings together with their own descendants and the focused
body again), filtered to entities carrying a physical Model; a Model-bearing
focused body therefore occurs at least twice in the list. -/
theorem c3_texload_characterization (S : Sys) (f p : ℕ)
    (hp : S.parent f = some p) (hf : f < S.n) :
    (∀ x, x ∈ getTexLoadBodies S f ↔
      S.isBody x = true ∧ (x = f ∨ x ∈ allParents S f ∨ x ∈ allChildren S p)) ∧
    (S.isBody f = true → 2 ≤ (getTexLoadBodies S f).count f) := by
  have hmem : f ∈ childrenOf S p := by
    unfold childrenOf
    rw [List.mem_filter]
    refine ⟨List.mem_range.mpr hf, by simp [hp]⟩
  constructor
  · intro x
    simp only [getTexLoadBodies, hp, List.mem_filter, List.mem_append, List.mem_singleton]
    tauto
  · intro hb
    simp only [getTexLoadBodies, hp]
    rw [List.count_filter hb]
    rcases Nat.exists_eq_succ_of_ne_zero (by omega : S.n ≠ 0) with ⟨m, hm⟩
    have hchild : 1 ≤ (allChildren S p).count f := by
      unfold allChildren
      rw [hm, allChildrenAux, List.count_append]
      have h1 : 0 < (childrenOf S p).count f := List.count_pos_iff.mpr hmem
      omega
    rw [List.count_append, List.count_append]
    have hself : ([f] : List ℕ).count f = 1 := by simp
    omega

/-- C3 witness: the amended characterization applied to the concrete
hierarchy `texHier` at focused body 1 (parent 0). -/
theorem c3_texload_witness :
    texHier.parent 1 = some 0 ∧ 1 < texHier.n ∧
    ((∀ x, x ∈ getTexLoadBodies texHier 1 ↔
      texHier.isBody x = true ∧
        (x = 1 ∨ x ∈ allParents texHier 1 ∨ x ∈ allChildren texHier 0)) ∧
     (texHier.isBody 1 = true → 2 ≤ (getTexLoadBodies texHier 1).count 1)) :=
  ⟨by decide, by decide, c3_texload_characterization texHier 1 0 (by decide) (by decide)⟩

/-! ## Orbit model and per-frame state resolution (Game::update lines 519-560)

`Orbit::computePosition` lives outside `src/`.  Modelled from the spec
(section 4.1): mean anomaly propagated from m0 and wrapped, Kepler's
equation solved by fixed-point iteration with a fixed iteration count, true
anomaly and radius derived from the eccentric anomaly, the point placed in
the orbital plane and rotated by argument-of-periapsis, inclination and
longitude-of-ascending-node (3-1-3 sequence). -/

/-- Rotation of a vector about the z axis. -/
noncomputable def rotZ (a : ℝ) (v : Vec3) : Vec3 :=
  ⟨Real.cos a * v.x - Real.sin a * v.y, Real.sin a * v.x + Real.cos a * v.y, v.z⟩

/-- Rotation of a vector about the x axis. -/
noncomputable def rotX (a : ℝ) (v : Vec3) : Vec3 :=
  ⟨v.x, Real.cos a * v.y - Real.sin a * v.z, Real.sin a * v.y + Real.cos a * v.z⟩

/-- Fixed-point Kepler solver with a fixed iteration count (spec: "solved
for eccentric anomaly via fixed-point/Newton iteration", bit-reproducible
given a fixed iteration count). -/
noncomputable def keplerSolve (M ecc : ℝ) : ℝ := (fun E => M + ecc * Real.sin E)^[10] M

/-- Modelled from the spec: `Orbit::computePosition(epoch)`. -/
noncomputable def computePosition (o : Orbit) (epoch : ℝ) : Vec3 :=
  let meanAnomaly0 := o.m0 + 2 * Real.pi * epoch / o.period
  let M := meanAnomaly0 - 2 * Real.pi * ((⌊meanAnomaly0 / (2 * Real.pi)⌋ : ℤ) : ℝ)
  let E := keplerSolve M o.ecc
  let nu := 2 * Real.arctan (Real.sqrt ((1 + o.ecc) / (1 - o.ecc)) * Real.tan (E / 2))
  let r := o.sma * (1 - o.ecc * Real.cos E)
  rotZ o.lan (rotX o.inc (rotZ o.arg ⟨r * Real.cos nu, r * Real.sin nu, 0⟩))

/-- Embeds the relative-position computation of `Game::update`: the orbit
output when the entity has both a parent and an orbit, the zero vector
otherwise (the source zeroes the position when `!getParent().exists() ||
!hasOrbit()`). -/
noncomputable def relPos (S : Sys) (epoch : ℝ) (i : ℕ) : Vec3 :=
  match S.parent i, S.orbit i with
  | some _, some o => computePosition o epoch
  | _, _ => 0

/-- Sum of a list of vectors (the accumulation loop of `Game::update`). -/
noncomputable def sumVec : List Vec3 → Vec3
  | [] => 0
  | v :: vs => v + sumVec vs

/-- Embeds the absolute-position computation of `Game::update`: own relative
position plus the relative positions of every ancestor, walking the parent
chain to the root. -/
noncomputable def absPos (S : Sys) (epoch : ℝ) (i : ℕ) : Vec3 :=
  relPos S epoch i + sumVec ((allParents S i).map (relPos S epoch))

theorem Vec3.addComm (a b : Vec3) : a + b = b + a := by
  ext <;> simp <;> ring

theorem Vec3.addAssoc (a b c : Vec3) : a + b + c = a + (b + c) := by
  ext <;> simp <;> ring

/-- Circular orbit used by the C8 counterexample: eccentricity 0, semi-major
axis 1, all angles 0, period 1, mean anomaly 0. -/
def circOrbit : Orbit := ⟨0, 1, 0, 0, 0, 1, 0⟩

/-- One-entity hierarchy whose single entity is a root that nevertheless
carries an orbit. -/
def soloHier : Sys where
  n := 1
  parent := fun _ => none
  isBody := fun _ => true
  orbit := fun _ => some circOrbit
  clouds := fun _ => none
  parent_lt := by
    intro i p h
    simp at h

/-- C8 counterexample: entity 0 of `soloHier` has an orbit but no parent; the
code resolves its relative position to the zero vector although
`computePosition` yields the nonzero point (1, 0, 0) at epoch 0, so
"relative position equals computePosition(epoch) if the entity has an
orbit" fails for parentless entities. -/
theorem c8_counterexample :
    relPos soloHier 0 0 = 0 ∧
    computePosition circOrbit 0 = ⟨1, 0, 0⟩ ∧ (⟨1, 0, 0⟩ : Vec3) ≠ (0 : Vec3) := by
  refine ⟨?_, ?_, ?_⟩
  · simp [relPos, soloHier]
  · have hfix : keplerSolve 0 0 = 0 := by
      unfold keplerSolve
      exact Function.iterate_fixed (by simp) 10
    simp only [computePosition, circOrbit]
    norm_num [hfix, rotZ, rotX]
  · intro h
    have hx := congrArg Vec3.x h
    simp at hx

/-- C8 (amended): the relative position equals the Orbit Model output exactly
when the entity has both a parent and an orbit and is zero otherwise; the
absolute position is the relative position plus the sum of all ancestors'
relative positions; consequently for any parent link the absolute position
is the parent's absolute position plus the child's relative position (the
three-level root-A-B accumulation identity, for all epochs). -/
theorem c8_positions (S : Sys) (e : ℝ) :
    (∀ i p o, S.parent i = some p → S.orbit i = some o →
      relPos S e i = computePosition o e) ∧
    (∀ i, S.parent i = none ∨ S.orbit i = none → relPos S e i = 0) ∧
    (∀ i, absPos S e i = relPos S e i + sumVec ((allParents S i).map (relPos S e))) ∧
    (∀ i p, S.parent i = some p → absPos S e i = absPos S e p + relPos S e i) := by
  refine ⟨?_, ?_, fun i => rfl, ?_⟩
  · intro i p o h1 h2
    simp [relPos, h1, h2]
  · intro i h
    rcases h with h | h
    · simp [relPos, h]
    · rcases hpar : S.parent i with _ | q <;> simp [relPos, hpar, h]
  · intro i p h
    unfold absPos
    rw [allParents_eq_cons h]
    simp only [List.map_cons, sumVec]
    ext <;> simp <;> ring

/-- Three-level chain hierarchy: stationary root 0, child 1 orbiting it,
grandchild 2 orbiting the child. -/
def chainHier : Sys where
  n := 3
  parent := fun i => if i = 0 then none else some (i - 1)
  isBody := fun _ => true
  orbit := fun i => if i = 0 then none else some circOrbit
  clouds := fun _ => none
  parent_lt := by
    intro i p h
    by_cases h0 : i = 0
    · simp [h0] at h
    · simp [h0] at h
      omega

/-- C8 witness: the amended theorem applied to a concrete three-level chain
(root 0, child 1, grandchild 2) at epoch 5, giving the B = A + rel(B)
accumulation identity. -/
theorem c8_positions_witness :
    chainHier.parent 2 = some 1 ∧
    absPos chainHier 5 2 = absPos chainHier 5 1 + relPos chainHier 5 2 :=
  ⟨rfl, (c8_positions chainHier 5).2.2.2 2 1 rfl⟩

/-! ## Cloud-layer angular displacement (Game::update lines 550-555) -/

/-- Real truncation toward zero, the rounding used by C `fmod`. -/
noncomputable def truncR (x : ℝ) : ℝ :=
  if 0 ≤ x then ((⌊x⌋ : ℤ) : ℝ) else ((⌈x⌉ : ℤ) : ℝ)

/-- Embeds C `fmod`: remainder with the sign of the dividend. -/
noncomputable def fmodR (x y : ℝ) : ℝ := x - y * truncR (x / y)

/-- Embeds the `cloudDisp` lambda of `Game::update` verbatim: it returns 0
when the entity HAS clouds, and otherwise reads the period of the
default-constructed `Clouds` member (zero, so it returns 0 there too).  The
`getD` mirrors `getClouds()` yielding the default-constructed attachment on
an entity without clouds. -/
noncomputable def cloudDisp (clouds : Option Clouds) (epoch : ℝ) : ℝ :=
  if clouds.isSome then 0
  else
    let period := (clouds.getD ⟨0⟩).period
    if period ≠ 0 then fmodR (-epoch / period) 1 else 0

/-- Modelled from the spec: "Cloud displacement = 0 if no cloud layer or
period is zero, else -frac(epoch / period) (clouds drift retrograde to
day/night rotation)". -/
noncomputable def specCloudDisp (clouds : Option Clouds) (epoch : ℝ) : ℝ :=
  match clouds with
  | none => 0
  | some c => if c.period = 0 then 0 else -(fmodR (epoch / c.period) 1)

/-- C1: the source's clouds branch is inverted.  For an entity WITH a cloud
layer of period 2 at epoch 1 the code computes displacement 0 (it bails out
whenever `hasClouds()` holds, and for cloudless entities the default period
0 also yields 0), while the spec demands -frac(1/2) = -1/2.  The spec itself
flags this branch as a likely defect, so the claim is right and the code
wrong. -/
theorem c1_cloud_disp_inversion :
    cloudDisp (some ⟨2⟩) 1 = 0 ∧
    specCloudDisp (some ⟨2⟩) 1 = -(1 / 2) ∧
    (∀ clouds epoch, cloudDisp clouds epoch = 0) := by
  refine ⟨by simp [cloudDisp], ?_, ?_⟩
  · simp only [specCloudDisp]
    rw [if_neg (by norm_num)]
    rw [show (1:ℝ) / (2:ℝ) = 0.5 by norm_num]
    unfold fmodR truncR
    norm_num
  · intro clouds epoch
    rcases clouds with _ | c
    · simp [cloudDisp]
    · simp [cloudDisp]

/-! ## Edge-triggered key polling (Game::isPressedOnce, lines 432-443) -/

/-- Embeds one call of `Game::isPressedOnce` for a single key: given the
stored `keysHeld` flag and the current raw key state, returns (result, new
stored flag). -/
def pressStep (held down : Bool) : Bool × Bool :=
  if down then (if held then (false, held) else (true, true)) else (false, false)

/-- Run of `isPressedOnce` checks over a sequence of raw key samples,
threading the `keysHeld` flag; yields the sequence of results. -/
def pressRun (held : Bool) : List Bool → List Bool
  | [] => []
  | d :: ds => (pressStep held d).1 :: pressRun (pressStep held d).2 ds

theorem pressRun_getD (held : Bool) :
    ∀ (ds : List Bool) (n : ℕ), n < ds.length →
      (pressRun held ds).getD n false =
        (ds.getD n false && !(match n with
          | 0 => held
          | m + 1 => ds.getD m false)) := by
  intro ds
  induction ds generalizing held with
  | nil => intro n h; simp at h
  | cons d ds ih =>
    intro n h
    match n with
    | 0 =>
      simp only [pressRun, List.getD_cons_zero]
      rcases d <;> rcases held <;> simp [pressStep]
    | m + 1 =>
      simp only [pressRun, List.getD_cons_succ]
      have hstep : (pressStep held d).2 = d := by
        rcases d <;> rcases held <;> simp [pressStep]
      rw [ih (pressStep held d).2 m (by simpa using h), hstep]
      match m with
      | 0 => simp
      | k + 1 => simp

/-- C9: one `isPressedOnce` check fires exactly when the key is down and was
not recorded as held by the previous check (and the stored flag always ends
up equal to the raw state); over any run, two firings are always separated
by a check that observed the key released. -/
theorem c9_pressed_once :
    (∀ held down, (pressStep held down).1 = (down && !held) ∧ (pressStep held down).2 = down) ∧
    (∀ (held : Bool) (ds : List Bool) (i j : ℕ), i < j → j < ds.length →
      (pressRun held ds).getD i false = true →
      (pressRun held ds).getD j false = true →
      ∃ k, i < k ∧ k < j ∧ ds.getD k false = false) := by
  constructor
  · intro held down
    rcases held <;> rcases down <;> simp [pressStep]
  · intro held ds i j hij hj hi htrue
    have hchar := pressRun_getD held ds
    rcases j with _ | m
    · omega
    · have hjc := hchar (m + 1) hj
      rw [htrue] at hjc
      have hjc2 : true = (ds.getD (m + 1) false && !(ds.getD m false)) := hjc
      have hrel : ds.getD m false = false := by
        rcases hm : ds.getD m false
        · rfl
        · rw [hm] at hjc2
          simp at hjc2
      refine ⟨m, ?_, by omega, hrel⟩
      rcases Nat.lt_or_ge i m with h | h
      · exact h
      · exfalso
        have him : i = m := by omega
        subst him
        have hic := hchar i (by omega)
        rw [hi, hrel] at hic
        simp at hic

/-- C9 witness: the temporal part applied to the concrete run
down-down-up-down from an initially clear flag, whose firings at checks 0
and 3 are separated by the release observed at check 2. -/
theorem c9_pressed_once_witness :
    (pressRun false [true, true, false, true]).getD 0 false = true ∧
    (pressRun false [true, true, false, true]).getD 3 false = true ∧
    ∃ k, 0 < k ∧ k < 3 ∧ ([true, true, false, true] : List Bool).getD k false = false :=
  ⟨by decide, by decide,
    c9_pressed_once.2 false [true, true, false, true] 0 3 (by decide) (by decide)
      (by decide) (by decide)⟩

/-! ## Camera state machine (Game::updateIdle / updateTrack / updateMove)

The embedding is per-frame-pure: one step maps (config, environment, input
sample, delta time, state) to the next state.  Body positions enter through
the environment and are held fixed across a step, matching how each frame
reads the already-resolved entity states.  The `lookAt` orientation matrix
is represented by its forward unit vector (`viewDirF`); the source
recovers exactly that vector from the matrix via
`-(transpose(viewDir)[2])`. -/

/-- Per-body data the camera reads from the entity states: resolved world
position and Model radius. -/
structure Body where
  pos : Vec3
  radius : ℝ

/-- The environment of a camera step: the body list in load order
(`getBodies()`). -/
structure Env where
  bodies : List Body

/-- Default body used to embed out-of-range vector indexing (the source
would be undefined there; no theorem relies on this case). -/
def bodyDefault : Body := ⟨⟨0, 0, 0⟩, 0⟩

/-- World position of body `i`. -/
def bodyPos (env : Env) (i : ℕ) : Vec3 := (env.bodies.getD i bodyDefault).pos

/-- Model radius of body `i`. -/
def bodyRadius (env : Env) (i : ℕ) : ℝ := (env.bodies.getD i bodyDefault).radius

/-- Session constants read from the settings file and game.hpp. -/
structure Config where
  sensitivity : ℝ
  viewSmoothness : ℝ
  maxViewSpeed : ℝ
  timeWarpCount : ℕ

/-- The three phases of the focus-switch state machine. -/
inductive SwitchPhase where
  | IDLE
  | TRACK
  | MOVE
deriving DecidableEq

/-- One frame's worth of raw input: cursor position, mouse buttons, and the
edge-triggered key events `updateIdle` polls. -/
structure Input where
  posX : ℝ
  posY : ℝ
  button1 : Bool
  button2 : Bool
  kOnce : Bool
  lOnce : Bool
  tabOnce : Bool
  shiftHeld : Bool

/-- The mutable camera/session state of `Game` that the three update methods
touch. -/
structure GState where
  viewPolar : Vec3
  panPolar : Vec2
  viewSpeed : Vec3
  viewPos : Vec3
  viewDirF : Vec3
  switchPhase : SwitchPhase
  switchTime : ℝ
  switchNewViewPolar : Vec3
  switchPreviousViewDirF : Vec3
  focusedBodyId : ℕ
  switchPreviousBodyId : ℕ
  timeWarpIndex : ℕ
  bodyNameId : ℕ
  bodyNameFade : ℝ
  dragging : Bool
  preMouseX : ℝ
  preMouseY : ℝ
  viewFovy : ℝ

/-- The elevation clamp bound of `updateIdle`: pi/2 - 0.001. -/
noncomputable def maxVerticalAngle : ℝ := Real.pi / 2 - 0.001

/-- Embeds the drag-flag update at the top of `updateIdle`. -/
def idleDragging (inp : Input) (s : GState) : Bool :=
  if (inp.button1 || inp.button2) && !s.dragging then true
  else if s.dragging && !(inp.button1 || inp.button2) then false
  else s.dragging

/-- Embeds the per-component speed clamp of `updateIdle` (two sequential
comparisons, exactly as in the source). -/
noncomputable def clampOne (m v : ℝ) : ℝ :=
  let a := if v > m then m else v
  if a < -m then -m else a

/-- Embeds the left-drag velocity accumulation of `updateIdle`. -/
noncomputable def idleSpeed1 (cfg : Config) (inp : Input) (s : GState) : Vec3 :=
  if idleDragging inp s && inp.button1 then
    ⟨clampOne cfg.maxViewSpeed (s.viewSpeed.x + (-inp.posX + s.preMouseX) * cfg.sensitivity),
     clampOne cfg.maxViewSpeed (s.viewSpeed.y + (inp.posY - s.preMouseY) * cfg.sensitivity),
     s.viewSpeed.z⟩
  else s.viewSpeed

/-- Embeds the right-drag pan accumulation of `updateIdle`. -/
noncomputable def idlePan1 (cfg : Config) (inp : Input) (s : GState) : Vec2 :=
  if idleDragging inp s && !inp.button1 && inp.button2 then
    s.panPolar +
      (cfg.sensitivity * s.viewFovy) • (⟨-inp.posX + s.preMouseX, inp.posY - s.preMouseY⟩ : Vec2)
  else s.panPolar

/-- Embeds the polar-position integration of `updateIdle` (azimuth and
elevation advance by the velocity, distance advances proportionally to the
clearance above the focused body's radius). -/
noncomputable def idlePolar1 (cfg : Config) (env : Env) (inp : Input) (s : GState) : Vec3 :=
  ⟨s.viewPolar.x + (idleSpeed1 cfg inp s).x,
   s.viewPolar.y + (idleSpeed1 cfg inp s).y,
   s.viewPolar.z +
     (idleSpeed1 cfg inp s).z * max 0.01 (s.viewPolar.z - bodyRadius env s.focusedBodyId)⟩

/-- Elevation after the two singularity clamps of `updateIdle`. -/
noncomputable def idleY3 (cfg : Config) (env : Env) (inp : Input) (s : GState) : ℝ :=
  let y1 := (idlePolar1 cfg env inp s).y
  let y2 := if y1 > maxVerticalAngle then maxVerticalAngle else y1
  if y2 < -maxVerticalAngle then -maxVerticalAngle else y2

/-- Elevation velocity after damping and the clamps (zeroed on clamp). -/
noncomputable def idleSpeedY3 (cfg : Config) (env : Env) (inp : Input) (s : GState) : ℝ :=
  let y1 := (idlePolar1 cfg env inp s).y
  let sy := cfg.viewSmoothness * (idleSpeed1 cfg inp s).y
  let y2 := if y1 > maxVerticalAngle then maxVerticalAngle else y1
  let sy2 := if y1 > maxVerticalAngle then 0 else sy
  if y2 < -maxVerticalAngle then 0 else sy2

/-- Camera velocity after damping and the elevation clamps. -/
noncomputable def idleSpeed3 (cfg : Config) (env : Env) (inp : Input) (s : GState) : Vec3 :=
  ⟨cfg.viewSmoothness * (idleSpeed1 cfg inp s).x,
   idleSpeedY3 cfg env inp s,
   cfg.viewSmoothness * (idleSpeed1 cfg inp s).z⟩

/-- Distance after the radius floor of `updateIdle`. -/
noncomputable def idleZ3 (cfg : Config) (env : Env) (inp : Input) (s : GState) : ℝ :=
  if (idlePolar1 cfg env inp s).z < bodyRadius env s.focusedBodyId
  then bodyRadius env s.focusedBodyId
  else (idlePolar1 cfg env inp s).z

/-- The polar coordinates at the end of the motion part of `updateIdle`. -/
noncomputable def idlePolar3 (cfg : Config) (env : Env) (inp : Input) (s : GState) : Vec3 :=
  ⟨(idlePolar1 cfg env inp s).x, idleY3 cfg env inp s, idleZ3 cfg env inp s⟩

/-- Pan elevation after the two pan clamps of `updateIdle` (the clamps only
rewrite the y component). -/
noncomputable def idlePanY3 (cfg : Config) (env : Env) (inp : Input) (s : GState) : ℝ :=
  let p1y := (idlePan1 cfg inp s).y
  let y3 := idleY3 cfg env inp s
  let p2y := if y3 + p1y > maxVerticalAngle then maxVerticalAngle - y3 else p1y
  if y3 + p2y < -maxVerticalAngle then -maxVerticalAngle - y3 else p2y

/-- The pan offset after the two pan clamps of `updateIdle`. -/
noncomputable def idlePan3 (cfg : Config) (env : Env) (inp : Input) (s : GState) : Vec2 :=
  ⟨(idlePan1 cfg inp s).x, idlePanY3 cfg env inp s⟩

/-- Camera position relative to the focused body at the end of the motion
part of `updateIdle`. -/
noncomputable def idleRelViewPos (cfg : Config) (env : Env) (inp : Input) (s : GState) : Vec3 :=
  idleZ3 cfg env inp s •
    polarToCartesian ⟨(idlePolar3 cfg env inp s).x, (idlePolar3 cfg env inp s).y⟩

/-- The aim direction `updateIdle` hands to `lookAt` (already a unit
vector). -/
noncomputable def idleViewDirF (cfg : Config) (env : Env) (inp : Input) (s : GState) : Vec3 :=
  -(polarToCartesian
      ⟨(idlePolar3 cfg env inp s).x + (idlePan3 cfg env inp s).x,
       (idlePolar3 cfg env inp s).y + (idlePan3 cfg env inp s).y⟩)

/-- Embeds `Game::chooseNextBody`: step the focused index forward or
backward through the body list, wrapping around. -/
def chooseNextBody (env : Env) (fid : ℕ) (forward : Bool) : ℕ :=
  let size : ℤ := env.bodies.length
  let id : ℤ := (fid : ℤ) + (if forward then 1 else -1)
  if id < 0 then (id + size).toNat
  else if id ≥ size then (id - size).toNat
  else id.toNat

/-- Embeds the ray-test block of the `updateIdle` switch branch: the target
polar coordinates handed to TRACK, shifted tangentially when the new body
would otherwise be obstructed.  `radius` is whatever the local variable
`radius` holds at that point in the source — the radius captured at
function entry. -/
noncomputable def switchTargetPolar (radius : ℝ) (relViewPos target polar : Vec3) : Vec3 :=
  let targetDir := (target - relViewPos).normalize
  let b := relViewPos.dot targetDir
  if b < 0 then
    let closestPoint := relViewPos - b • targetDir
    let closestDist := closestPoint.norm
    let closestMinDist := radius * 1.1
    if closestDist < closestMinDist then
      let tangent := closestPoint.normalize
      let totalDist := (target - relViewPos).norm
      let targetClosestDist := (target - closestMinDist • tangent).norm
      let tangentCoef := totalDist * (closestMinDist - closestDist) / targetClosestDist
      let newRelPos := polar.z • polarToCartesian ⟨polar.x, polar.y⟩ + tangentCoef • tangent
      let newRelDir := -(newRelPos.normalize)
      ⟨atan2 (-newRelDir.y) (-newRelDir.x), Real.arcsin (-newRelDir.z), newRelPos.norm⟩
    else polar
  else polar

/-- Modelled from the spec sentence on the switch trigger: "computes whether
the straight-line path from old to new focused body would pass within 1.1
times the new body's radius of the camera's line of sight — if so, computes
a tangent-offset lateral shift of the target polar coordinates using
similar-triangles (Thales) geometry ...; this offset only applies when the
closest approach point is in front of the camera".  The `radius` parameter
is the radius the claim dictates; the closest approach is taken between the
camera-to-target sight line and the previous body's center (the origin of
the relative frame the source works in). -/
noncomputable def specObstructionTarget (radius : ℝ) (relViewPos target polar : Vec3) : Vec3 :=
  let sightDir := (target - relViewPos).normalize
  let closestParam := -(relViewPos.dot sightDir)
  let closestPoint := relViewPos + closestParam • sightDir
  if 0 < closestParam ∧ closestPoint.norm < 1.1 * radius then
    let tangent := closestPoint.normalize
    let shift :=
      (1.1 * radius - closestPoint.norm) * (target - relViewPos).norm /
        (target - (1.1 * radius) • tangent).norm
    let shifted := polar.z • polarToCartesian ⟨polar.x, polar.y⟩ + shift • tangent
    ⟨atan2 shifted.normalize.y shifted.normalize.x, Real.arcsin shifted.normalize.z,
      shifted.norm⟩
  else polar

/-- Embeds `Game::updateIdle` (the scroll callback feeds `viewSpeed.z`
between frames and is outside this step). -/
noncomputable def updateIdle (cfg : Config) (env : Env) (inp : Input) (s : GState) : GState :=
  let polar3 := idlePolar3 cfg env inp s
  let pan3 := idlePan3 cfg env inp s
  let speed3 := idleSpeed3 cfg env inp s
  let relViewPos := idleRelViewPos cfg env inp s
  let viewPos := relViewPos + bodyPos env s.focusedBodyId
  let dirF := idleViewDirF cfg env inp s
  let wi1 := if inp.kOnce = true ∧ 0 < s.timeWarpIndex then s.timeWarpIndex - 1
    else s.timeWarpIndex
  let wi2 := if inp.lOnce = true ∧ wi1 + 1 < cfg.timeWarpCount then wi1 + 1 else wi1
  if inp.tabOnce = true then
    let newFid := chooseNextBody env s.focusedBodyId (!inp.shiftHeld)
    let target := bodyPos env newFid - bodyPos env s.focusedBodyId
    { s with
      viewPolar := polar3
      panPolar := pan3
      viewSpeed := speed3
      viewPos := viewPos
      viewDirF := dirF
      timeWarpIndex := 0
      bodyNameId := s.focusedBodyId
      bodyNameFade := 1
      dragging := idleDragging inp s
      switchPhase := SwitchPhase.TRACK
      switchPreviousBodyId := s.focusedBodyId
      focusedBodyId := newFid
      switchPreviousViewDirF := dirF
      switchNewViewPolar := switchTargetPolar (bodyRadius env s.focusedBodyId) relViewPos
        target polar3 }
  else
    { s with
      viewPolar := polar3
      panPolar := pan3
      viewSpeed := speed3
      viewPos := viewPos
      viewDirF := dirF
      timeWarpIndex := wi2
      bodyNameId := s.focusedBodyId
      bodyNameFade := 1
      dragging := idleDragging inp s }

/-- The interpolated polar coordinates of `updateTrack` (shortest angular
path in azimuth toward the pre-computed target polar). -/
noncomputable def trackInterpPolar (s : GState) : Vec3 :=
  let f := ease (min 1 (s.switchTime / 1))
  let delta0 := s.switchNewViewPolar.x - s.viewPolar.x
  let delta := if delta0 < -Real.pi then delta0 + 2 * Real.pi
    else if delta0 > Real.pi then delta0 - 2 * Real.pi else delta0
  ((1 - f) • s.viewPolar) +
    (f • (⟨s.viewPolar.x + delta, s.switchNewViewPolar.y, s.switchNewViewPolar.z⟩ : Vec3))

/-- Camera position during `updateTrack`: the interpolated polar offset
around the previous body. -/
noncomputable def trackViewPos (env : Env) (s : GState) : Vec3 :=
  bodyPos env s.switchPreviousBodyId +
    (trackInterpPolar s).z •
      polarToCartesian ⟨(trackInterpPolar s).x, (trackInterpPolar s).y⟩

/-- Aim direction during `updateTrack`: spherical-angle interpolation from
the captured source direction toward the direction of the new body. -/
noncomputable def trackDirF (env : Env) (s : GState) : Vec3 :=
  let f := ease (min 1 (s.switchTime / 1))
  let targetDir := (bodyPos env s.focusedBodyId - trackViewPos env s).normalize
  let targetPhi := Real.arcsin targetDir.z
  let targetTheta := atan2 targetDir.y targetDir.x
  let sourceDir := s.switchPreviousViewDirF
  let sourcePhi := Real.arcsin sourceDir.z
  let sourceTheta := atan2 sourceDir.y sourceDir.x
  let dt0 := targetTheta - sourceTheta
  let dTheta := if dt0 < -Real.pi + 0.001 then dt0 + 2 * Real.pi
    else if dt0 > Real.pi - 0.001 then dt0 - 2 * Real.pi else dt0
  polarToCartesian
    ⟨f * (sourceTheta + dTheta) + (1 - f) * sourceTheta,
     f * targetPhi + (1 - f) * sourcePhi⟩

/-- Embeds `Game::updateTrack`. -/
noncomputable def updateTrack (env : Env) (dt : ℝ) (s : GState) : GState :=
  let st := s.switchTime + dt
  if st > 1 then
    { s with
      bodyNameId := s.switchPreviousBodyId
      bodyNameFade := clampR (1 - min 1 (s.switchTime / 1) * 2) 0 1
      viewPos := trackViewPos env s
      viewDirF := trackDirF env s
      switchPhase := SwitchPhase.MOVE
      switchTime := 0
      viewPolar := trackInterpPolar s }
  else
    { s with
      bodyNameId := s.switchPreviousBodyId
      bodyNameFade := clampR (1 - min 1 (s.switchTime / 1) * 2) 0 1
      viewPos := trackViewPos env s
      viewDirF := trackDirF env s
      switchTime := st }

/-- The source world position `updateMove` recomputes every frame: the
previous body plus the polar offset frozen at the end of TRACK. -/
noncomputable def moveSourcePos (env : Env) (s : GState) : Vec3 :=
  bodyPos env s.switchPreviousBodyId +
    s.viewPolar.z • polarToCartesian ⟨s.viewPolar.x, s.viewPolar.y⟩

/-- Arrival distance of MOVE: max(4 x radius, 1000). -/
noncomputable def moveTargetDist (env : Env) (s : GState) : ℝ :=
  max (4 * bodyRadius env s.focusedBodyId) 1000

/-- The fixed aim direction of MOVE: from the source position toward the new
focused body. -/
noncomputable def moveDir (env : Env) (s : GState) : Vec3 :=
  (bodyPos env s.focusedBodyId - moveSourcePos env s).normalize

/-- The arrival position of MOVE: offset back from the new body along the
aim direction. -/
noncomputable def moveTargetPos (env : Env) (s : GState) : Vec3 :=
  bodyPos env s.focusedBodyId - moveTargetDist env s • moveDir env s

/-- Camera position during `updateMove`: power-ratio-eased interpolation of
source and target positions. -/
noncomputable def moveViewPos (env : Env) (s : GState) : Vec3 :=
  let f := ease2 (min 1 (s.switchTime / 1)) 4
  f • moveTargetPos env s + (1 - f) • moveSourcePos env s

/-- Embeds `Game::updateMove`. -/
noncomputable def updateMove (env : Env) (dt : ℝ) (s : GState) : GState :=
  let st := s.switchTime + dt
  if st > 1 then
    { s with
      bodyNameId := s.focusedBodyId
      bodyNameFade := clampR ((min 1 (s.switchTime / 1) - 0.5) * 2) 0 1
      viewPos := moveViewPos env s
      viewDirF := moveDir env s
      switchPhase := SwitchPhase.IDLE
      switchTime := 0
      viewPolar := ⟨atan2 (-(moveDir env s).y) (-(moveDir env s).x),
        Real.arcsin (-(moveDir env s).z), moveTargetDist env s⟩
      panPolar := 0
      viewSpeed := 0 }
  else
    { s with
      bodyNameId := s.focusedBodyId
      bodyNameFade := clampR ((min 1 (s.switchTime / 1) - 0.5) * 2) 0 1
      viewPos := moveViewPos env s
      viewDirF := moveDir env s
      switchTime := st }

/-- One frame of the camera state machine: dispatch on the current phase as
`Game::update` does, then latch the cursor position. -/
noncomputable def stepCam (cfg : Config) (env : Env) (inp : Input) (dt : ℝ) (s : GState) :
    GState :=
  let s1 := match s.switchPhase with
    | SwitchPhase.IDLE => updateIdle cfg env inp s
    | SwitchPhase.TRACK => updateTrack env dt s
    | SwitchPhase.MOVE => updateMove env dt s
  { s1 with preMouseX := inp.posX, preMouseY := inp.posY }

/-- A frame with no mouse or key activity. -/
noncomputable def noInput : Input := ⟨0, 0, false, false, false, false, false, false⟩

/-- A run of input-free frames with the given per-frame elapsed times. -/
noncomputable def camRun (cfg : Config) (env : Env) (dts : List ℝ) (s : GState) : GState :=
  dts.foldl (fun acc dt => stepCam cfg env noInput dt acc) s

/-! ### Projection lemmas for the camera step -/

theorem stepCam_idle {cfg : Config} {env : Env} {inp : Input} {dt : ℝ} {s : GState}
    (h : s.switchPhase = SwitchPhase.IDLE) :
    stepCam cfg env inp dt s =
      { updateIdle cfg env inp s with preMouseX := inp.posX, preMouseY := inp.posY } := by
  simp only [stepCam, h]

theorem stepCam_track {cfg : Config} {env : Env} {inp : Input} {dt : ℝ} {s : GState}
    (h : s.switchPhase = SwitchPhase.TRACK) :
    stepCam cfg env inp dt s =
      { updateTrack env dt s with preMouseX := inp.posX, preMouseY := inp.posY } := by
  simp only [stepCam, h]

theorem stepCam_move {cfg : Config} {env : Env} {inp : Input} {dt : ℝ} {s : GState}
    (h : s.switchPhase = SwitchPhase.MOVE) :
    stepCam cfg env inp dt s =
      { updateMove env dt s with preMouseX := inp.posX, preMouseY := inp.posY } := by
  simp only [stepCam, h]

theorem updateIdle_viewPolar (cfg : Config) (env : Env) (inp : Input) (s : GState) :
    (updateIdle cfg env inp s).viewPolar = idlePolar3 cfg env inp s := by
  by_cases h : inp.tabOnce = true <;> simp only [updateIdle, if_pos, if_neg, h] <;> rfl

theorem updateIdle_panPolar (cfg : Config) (env : Env) (inp : Input) (s : GState) :
    (updateIdle cfg env inp s).panPolar = idlePan3 cfg env inp s := by
  by_cases h : inp.tabOnce = true <;> simp only [updateIdle, if_pos, if_neg, h] <;> rfl

theorem updateIdle_viewSpeed (cfg : Config) (env : Env) (inp : Input) (s : GState) :
    (updateIdle cfg env inp s).viewSpeed = idleSpeed3 cfg env inp s := by
  by_cases h : inp.tabOnce = true <;> simp only [updateIdle, if_pos, if_neg, h] <;> rfl

theorem updateIdle_viewPos (cfg : Config) (env : Env) (inp : Input) (s : GState) :
    (updateIdle cfg env inp s).viewPos =
      idleRelViewPos cfg env inp s + bodyPos env s.focusedBodyId := by
  by_cases h : inp.tabOnce = true <;> simp only [updateIdle, if_pos, if_neg, h] <;> rfl

theorem updateIdle_viewDirF (cfg : Config) (env : Env) (inp : Input) (s : GState) :
    (updateIdle cfg env inp s).viewDirF = idleViewDirF cfg env inp s := by
  by_cases h : inp.tabOnce = true <;> simp only [updateIdle, if_pos, if_neg, h] <;> rfl

theorem updateIdle_no_tab (cfg : Config) (env : Env) (inp : Input) (s : GState)
    (h : inp.tabOnce = false) :
    (updateIdle cfg env inp s).switchPhase = s.switchPhase ∧
    (updateIdle cfg env inp s).focusedBodyId = s.focusedBodyId ∧
    (updateIdle cfg env inp s).switchPreviousBodyId = s.switchPreviousBodyId ∧
    (updateIdle cfg env inp s).switchTime = s.switchTime ∧
    (updateIdle cfg env inp s).switchNewViewPolar = s.switchNewViewPolar := by
  simp only [updateIdle, h]
  exact ⟨rfl, rfl, rfl, rfl, rfl⟩

theorem updateIdle_tab (cfg : Config) (env : Env) (inp : Input) (s : GState)
    (h : inp.tabOnce = true) :
    (updateIdle cfg env inp s).switchPhase = SwitchPhase.TRACK ∧
    (updateIdle cfg env inp s).switchPreviousBodyId = s.focusedBodyId ∧
    (updateIdle cfg env inp s).focusedBodyId =
      chooseNextBody env s.focusedBodyId (!inp.shiftHeld) ∧
    (updateIdle cfg env inp s).timeWarpIndex = 0 ∧
    (updateIdle cfg env inp s).switchPreviousViewDirF = idleViewDirF cfg env inp s ∧
    (updateIdle cfg env inp s).switchNewViewPolar =
      switchTargetPolar (bodyRadius env s.focusedBodyId) (idleRelViewPos cfg env inp s)
        (bodyPos env (chooseNextBody env s.focusedBodyId (!inp.shiftHeld)) -
          bodyPos env s.focusedBodyId)
        (idlePolar3 cfg env inp s) := by
  simp only [updateIdle, h]
  exact ⟨rfl, rfl, rfl, rfl, rfl, rfl⟩

/-! ### C10: a focus switch always resets the time warp -/

/-- C10: triggering a focus switch during IDLE resets the time-warp index to
0 regardless of its previous value, enters the TRACK phase, and records the
previous focused body and the just-computed orientation. -/
theorem c10_switch_resets_warp (cfg : Config) (env : Env) (inp : Input) (dt : ℝ) (s : GState)
    (hphase : s.switchPhase = SwitchPhase.IDLE) (htab : inp.tabOnce = true) :
    (stepCam cfg env inp dt s).timeWarpIndex = 0 ∧
    (stepCam cfg env inp dt s).switchPhase = SwitchPhase.TRACK ∧
    (stepCam cfg env inp dt s).switchPreviousBodyId = s.focusedBodyId ∧
    (stepCam cfg env inp dt s).switchPreviousViewDirF = idleViewDirF cfg env inp s := by
  rw [stepCam_idle hphase]
  have h := updateIdle_tab cfg env inp s htab
  exact ⟨h.2.2.2.1, h.1, h.2.1, h.2.2.2.2.1⟩

/-- Concrete session constants used by the witnesses. -/
noncomputable def cfg0 : Config := ⟨1, 1 / 2, 1, 4⟩

/-- Concrete two-body environment: body 0 (the initially focused one) at the
origin with radius 5, body 1 at (-7, 9, 0) with radius 1. -/
noncomputable def env0 : Env := ⟨[⟨⟨0, 0, 0⟩, 5⟩, ⟨⟨-7, 9, 0⟩, 1⟩]⟩

/-- Concrete IDLE camera state: at rest five units from body 0 along the x
axis, no pan, no velocity, warp index 3. -/
noncomputable def gs0 : GState :=
  ⟨⟨0, 0, 5⟩, 0, 0, ⟨5, 0, 0⟩, ⟨-1, 0, 0⟩, SwitchPhase.IDLE, 0, ⟨0, 0, 5⟩, ⟨-1, 0, 0⟩,
    0, 0, 3, 0, 1, false, 0, 0, 1⟩

/-- A frame whose only activity is the focus-switch key edge. -/
noncomputable def inpTab : Input := ⟨0, 0, false, false, false, false, true, false⟩

/-- C10 witness: the theorem applied to the concrete IDLE state `gs0` with a
TAB edge. -/
theorem c10_switch_resets_warp_witness :
    gs0.switchPhase = SwitchPhase.IDLE ∧ inpTab.tabOnce = true ∧
    ((stepCam cfg0 env0 inpTab 0 gs0).timeWarpIndex = 0 ∧
     (stepCam cfg0 env0 inpTab 0 gs0).switchPhase = SwitchPhase.TRACK ∧
     (stepCam cfg0 env0 inpTab 0 gs0).switchPreviousBodyId = gs0.focusedBodyId ∧
     (stepCam cfg0 env0 inpTab 0 gs0).switchPreviousViewDirF =
       idleViewDirF cfg0 env0 inpTab gs0) :=
  ⟨rfl, rfl, c10_switch_resets_warp cfg0 env0 inpTab 0 gs0 rfl rfl⟩

/-! ### C5: gimbal and distance invariants of the IDLE phase -/

theorem maxVerticalAngle_pos : 0 < maxVerticalAngle := by
  unfold maxVerticalAngle
  have h := Real.pi_gt_three
  norm_num
  linarith

theorem idleY3_bounds (cfg : Config) (env : Env) (inp : Input) (s : GState) :
    -maxVerticalAngle ≤ idleY3 cfg env inp s ∧ idleY3 cfg env inp s ≤ maxVerticalAngle := by
  have hM := maxVerticalAngle_pos
  simp only [idleY3]
  split_ifs <;> constructor <;> linarith

theorem idlePanY3_bounds (cfg : Config) (env : Env) (inp : Input) (s : GState) :
    -maxVerticalAngle ≤ idleY3 cfg env inp s + idlePanY3 cfg env inp s ∧
    idleY3 cfg env inp s + idlePanY3 cfg env inp s ≤ maxVerticalAngle := by
  have hM := maxVerticalAngle_pos
  simp only [idlePanY3]
  split_ifs <;> constructor <;> linarith

theorem idleSpeedY3_zero_high (cfg : Config) (env : Env) (inp : Input) (s : GState)
    (h : (idlePolar1 cfg env inp s).y > maxVerticalAngle) :
    idleSpeedY3 cfg env inp s = 0 := by
  have hM := maxVerticalAngle_pos
  simp only [idleSpeedY3]
  split_ifs <;> first | rfl | linarith

theorem idleSpeedY3_zero_low (cfg : Config) (env : Env) (inp : Input) (s : GState)
    (h : (idlePolar1 cfg env inp s).y < -maxVerticalAngle) :
    idleSpeedY3 cfg env inp s = 0 := by
  have hM := maxVerticalAngle_pos
  simp only [idleSpeedY3]
  split_ifs <;> first | rfl | linarith

theorem idleZ3_ge_radius (cfg : Config) (env : Env) (inp : Input) (s : GState) :
    bodyRadius env s.focusedBodyId ≤ idleZ3 cfg env inp s := by
  simp only [idleZ3]
  split_ifs with h
  · exact le_refl _
  · linarith

/-- C5: after any IDLE-phase update the elevation plus pan offset lies
strictly inside (-pi/2 + eps, pi/2 - eps) for eps = 1/2000 (the code clamps
to pi/2 - 1/1000 inclusive), the elevation velocity component is zeroed
whenever the elevation hit a clamp, the polar distance respects the focused
body's radius, and the camera's world distance from the focused body equals
that polar distance, hence never drops below the radius. -/
theorem c5_idle_invariants (cfg : Config) (env : Env) (inp : Input) (dt : ℝ) (s : GState)
    (hphase : s.switchPhase = SwitchPhase.IDLE)
    (hrad : 0 ≤ bodyRadius env s.focusedBodyId) :
    (-(Real.pi / 2) + 1 / 2000 < (stepCam cfg env inp dt s).viewPolar.y +
        (stepCam cfg env inp dt s).panPolar.y ∧
      (stepCam cfg env inp dt s).viewPolar.y + (stepCam cfg env inp dt s).panPolar.y <
        Real.pi / 2 - 1 / 2000) ∧
    ((idlePolar1 cfg env inp s).y > maxVerticalAngle →
      (stepCam cfg env inp dt s).viewSpeed.y = 0) ∧
    ((idlePolar1 cfg env inp s).y < -maxVerticalAngle →
      (stepCam cfg env inp dt s).viewSpeed.y = 0) ∧
    bodyRadius env s.focusedBodyId ≤ (stepCam cfg env inp dt s).viewPolar.z ∧
    ((stepCam cfg env inp dt s).viewPos - bodyPos env s.focusedBodyId).norm =
      (stepCam cfg env inp dt s).viewPolar.z := by
  rw [stepCam_idle hphase]
  have hpolar := updateIdle_viewPolar cfg env inp s
  have hpan := updateIdle_panPolar cfg env inp s
  have hspeed := updateIdle_viewSpeed cfg env inp s
  have hpos := updateIdle_viewPos cfg env inp s
  have hyb := idlePanY3_bounds cfg env inp s
  refine ⟨?_, ?_, ?_, ?_, ?_⟩
  · show -(Real.pi / 2) + 1 / 2000 < (updateIdle cfg env inp s).viewPolar.y +
        (updateIdle cfg env inp s).panPolar.y ∧ _
    rw [hpolar, hpan]
    have h1 : (idlePolar3 cfg env inp s).y = idleY3 cfg env inp s := rfl
    have h2 : (idlePan3 cfg env inp s).y = idlePanY3 cfg env inp s := rfl
    rw [h1, h2]
    unfold maxVerticalAngle at hyb
    constructor <;> [linarith [hyb.1]; linarith [hyb.2]]
  · intro h
    show (updateIdle cfg env inp s).viewSpeed.y = 0
    rw [hspeed]
    exact idleSpeedY3_zero_high cfg env inp s h
  · intro h
    show (updateIdle cfg env inp s).viewSpeed.y = 0
    rw [hspeed]
    exact idleSpeedY3_zero_low cfg env inp s h
  · show bodyRadius env s.focusedBodyId ≤ (updateIdle cfg env inp s).viewPolar.z
    rw [hpolar]
    exact idleZ3_ge_radius cfg env inp s
  · show ((updateIdle cfg env inp s).viewPos - bodyPos env s.focusedBodyId).norm =
      (updateIdle cfg env inp s).viewPolar.z
    rw [hpolar, hpos]
    have hcancel : idleRelViewPos cfg env inp s + bodyPos env s.focusedBodyId -
        bodyPos env s.focusedBodyId = idleRelViewPos cfg env inp s := by
      ext <;> simp <;> ring
    rw [hcancel]
    unfold idleRelViewPos
    rw [Vec3.norm_smul, polarToCartesian_norm, mul_one]
    have hz := idleZ3_ge_radius cfg env inp s
    exact abs_of_nonneg (by linarith)

/-- C5 witness: the theorem applied to the concrete IDLE state `gs0` (radius
5 of the focused body is nonnegative). -/
theorem c5_idle_invariants_witness :
    gs0.switchPhase = SwitchPhase.IDLE ∧ 0 ≤ bodyRadius env0 gs0.focusedBodyId ∧
    (bodyRadius env0 gs0.focusedBodyId ≤ (stepCam cfg0 env0 noInput 1 gs0).viewPolar.z ∧
     ((stepCam cfg0 env0 noInput 1 gs0).viewPos - bodyPos env0 gs0.focusedBodyId).norm =
       (stepCam cfg0 env0 noInput 1 gs0).viewPolar.z) :=
  ⟨rfl, by norm_num [bodyRadius, env0, gs0],
    (fun h => ⟨h.2.2.2.1, h.2.2.2.2⟩)
      (c5_idle_invariants cfg0 env0 noInput 1 gs0 rfl (by norm_num [bodyRadius, env0, gs0]))⟩

/-! ### C6: the MOVE phase holds its aim while translating -/

theorem updateMove_viewDirF (env : Env) (dt : ℝ) (s : GState) :
    (updateMove env dt s).viewDirF = moveDir env s := by
  by_cases h : s.switchTime + dt > 1 <;> simp [updateMove, h]

theorem updateMove_viewPos (env : Env) (dt : ℝ) (s : GState) :
    (updateMove env dt s).viewPos = moveViewPos env s := by
  by_cases h : s.switchTime + dt > 1 <;> simp [updateMove, h]

theorem updateMove_still_move {env : Env} {dt : ℝ} {s : GState}
    (h : (updateMove env dt s).switchPhase = SwitchPhase.MOVE)
    (hs : s.switchPhase = SwitchPhase.MOVE) :
    (updateMove env dt s).viewPolar = s.viewPolar ∧
    (updateMove env dt s).focusedBodyId = s.focusedBodyId ∧
    (updateMove env dt s).switchPreviousBodyId = s.switchPreviousBodyId ∧
    (updateMove env dt s).switchTime = s.switchTime + dt := by
  by_cases hc : s.switchTime + dt > 1
  · exfalso
    simp only [updateMove] at h
    rw [if_pos hc] at h
    simp at h
  · simp only [updateMove]
    rw [if_neg hc]
    exact ⟨rfl, rfl, rfl, rfl⟩

/-- `moveDir` only reads the previous/focused ids and the frozen polar
coordinates, so it is constant while those are. -/
theorem moveDir_congr {env : Env} {s1 s2 : GState}
    (h1 : s1.viewPolar = s2.viewPolar)
    (h2 : s1.focusedBodyId = s2.focusedBodyId)
    (h3 : s1.switchPreviousBodyId = s2.switchPreviousBodyId) :
    moveDir env s1 = moveDir env s2 := by
  unfold moveDir moveSourcePos
  rw [h1, h2, h3]

/-- C6: during MOVE the camera position is the alpha = 4 power-ratio-eased
interpolation from the source world position (previous body plus the frozen
polar offset) to the target position offset from the new focused body along
the aim direction at distance max(4 x radius, 1000); the aim direction is
that same fixed direction every MOVE frame, and while the phase persists the
quantities it is computed from do not change, so a subsequent MOVE frame
aims identically. -/
theorem c6_move_phase (cfg : Config) (env : Env) (inp inp2 : Input) (dt dt2 : ℝ) (s : GState)
    (hphase : s.switchPhase = SwitchPhase.MOVE) :
    (stepCam cfg env inp dt s).viewDirF = moveDir env s ∧
    (stepCam cfg env inp dt s).viewPos =
      ease2 (min 1 (s.switchTime / 1)) 4 • moveTargetPos env s +
        (1 - ease2 (min 1 (s.switchTime / 1)) 4) • moveSourcePos env s ∧
    moveTargetPos env s = bodyPos env s.focusedBodyId - moveTargetDist env s • moveDir env s ∧
    moveTargetDist env s = max (4 * bodyRadius env s.focusedBodyId) 1000 ∧
    moveDir env s = (bodyPos env s.focusedBodyId - moveSourcePos env s).normalize ∧
    ((stepCam cfg env inp dt s).switchPhase = SwitchPhase.MOVE →
      (stepCam cfg env inp2 dt2 (stepCam cfg env inp dt s)).viewDirF =
        (stepCam cfg env inp dt s).viewDirF) := by
  rw [stepCam_move hphase]
  refine ⟨updateMove_viewDirF env dt s, updateMove_viewPos env dt s, rfl, rfl, rfl, ?_⟩
  intro hm
  have hm' : (updateMove env dt s).switchPhase = SwitchPhase.MOVE := hm
  have hkeep := updateMove_still_move hm' hphase
  rw [stepCam_move hm]
  show (updateMove env dt2 _).viewDirF = _
  rw [updateMove_viewDirF]
  show _ = (updateMove env dt s).viewDirF
  rw [updateMove_viewDirF]
  exact moveDir_congr hkeep.1 hkeep.2.1 hkeep.2.2.1

/-- Concrete MOVE-phase state used by the C6 witness. -/
noncomputable def gsMove : GState :=
  ⟨⟨0, 0, 5⟩, 0, 0, ⟨5, 0, 0⟩, ⟨-1, 0, 0⟩, SwitchPhase.MOVE, 0, ⟨0, 0, 5⟩, ⟨-1, 0, 0⟩,
    1, 0, 0, 0, 1, false, 0, 0, 1⟩

/-- C6 witness: the theorem applied to the concrete MOVE state `gsMove`. -/
theorem c6_move_phase_witness :
    gsMove.switchPhase = SwitchPhase.MOVE ∧
    ((stepCam cfg0 env0 noInput (1 / 4) gsMove).viewDirF = moveDir env0 gsMove ∧
     moveTargetDist env0 gsMove = max (4 * bodyRadius env0 gsMove.focusedBodyId) 1000) :=
  ⟨rfl,
    (fun h => ⟨h.1, h.2.2.2.1⟩)
      (c6_move_phase cfg0 env0 noInput noInput (1 / 4) (1 / 4) gsMove rfl)⟩

/-! ### C2: the obstruction-avoidance target of a focus switch -/

theorem sqrt_eval {a b : ℝ} (hb : 0 ≤ b) (h : a = b ^ 2) : Real.sqrt a = b := by
  rw [h, Real.sqrt_sq hb]

/-- The ray-test block of the source computes exactly the spec-side
obstruction-corrected target, for the same radius parameter. -/
theorem switchTargetPolar_eq_spec (R : ℝ) (relPos target polar : Vec3) :
    switchTargetPolar R relPos target polar = specObstructionTarget R relPos target polar := by
  simp only [switchTargetPolar, specObstructionTarget]
  have hpt : relPos +
      -(relPos.dot ((target - relPos).normalize)) • (target - relPos).normalize =
      relPos - relPos.dot ((target - relPos).normalize) • (target - relPos).normalize := by
    ext <;> simp <;> ring
  rw [hpt]
  have hcm : (1.1 : ℝ) * R = R * 1.1 := mul_comm _ _
  rw [hcm]
  by_cases h1 : relPos.dot ((target - relPos).normalize) < 0
  · by_cases h2 : (relPos - relPos.dot ((target - relPos).normalize) •
        (target - relPos).normalize).norm < R * 1.1
    · rw [if_pos h1, if_pos h2, if_pos ⟨by linarith, h2⟩]
      have hsc : (target - relPos).norm *
          (R * 1.1 - (relPos - relPos.dot ((target - relPos).normalize) •
            (target - relPos).normalize).norm) /
          (target - (R * 1.1) • (relPos - relPos.dot ((target - relPos).normalize) •
            (target - relPos).normalize).normalize).norm =
          (R * 1.1 - (relPos - relPos.dot ((target - relPos).normalize) •
            (target - relPos).normalize).norm) * (target - relPos).norm /
          (target - (R * 1.1) • (relPos - relPos.dot ((target - relPos).normalize) •
            (target - relPos).normalize).normalize).norm := by
        ring
      rw [hsc]
      simp only [Vec3.neg_x, Vec3.neg_y, Vec3.neg_z, neg_neg]
    · rw [if_pos h1, if_neg h2, if_neg (by rintro ⟨_, hb2⟩; exact h2 hb2)]
  · rw [if_neg h1, if_neg (by rintro ⟨ha, _⟩; exact h1 (by linarith))]

/-- C2 (amended): on a focus switch triggered from IDLE, the target polar
coordinates of the TRACK phase are exactly the spec's obstruction-corrected
target computed with the radius of the PREVIOUSLY focused body (the source
captures `radius` before reassigning the focus): the Thales tangent shift
applies when the closest-approach point is in front of the camera and the
sight line passes within 1.1 x that radius of the previous body's center,
and otherwise the target equals the current view polar coordinates. -/
theorem c2_obstruction_correct (cfg : Config) (env : Env) (inp : Input) (dt : ℝ) (s : GState)
    (hphase : s.switchPhase = SwitchPhase.IDLE) (htab : inp.tabOnce = true) :
    (stepCam cfg env inp dt s).switchNewViewPolar =
      specObstructionTarget (bodyRadius env s.focusedBodyId) (idleRelViewPos cfg env inp s)
        (bodyPos env (chooseNextBody env s.focusedBodyId (!inp.shiftHeld)) -
          bodyPos env s.focusedBodyId)
        (idlePolar3 cfg env inp s) := by
  rw [stepCam_idle hphase]
  show (updateIdle cfg env inp s).switchNewViewPolar = _
  rw [(updateIdle_tab cfg env inp s htab).2.2.2.2.2]
  exact switchTargetPolar_eq_spec _ _ _ _

/-- C2 witness: the amended theorem applied to the concrete IDLE state `gs0`
with a TAB edge. -/
theorem c2_obstruction_correct_witness :
    gs0.switchPhase = SwitchPhase.IDLE ∧ inpTab.tabOnce = true ∧
    (stepCam cfg0 env0 inpTab 0 gs0).switchNewViewPolar =
      specObstructionTarget (bodyRadius env0 gs0.focusedBodyId)
        (idleRelViewPos cfg0 env0 inpTab gs0)
        (bodyPos env0 (chooseNextBody env0 gs0.focusedBodyId (!inpTab.shiftHeld)) -
          bodyPos env0 gs0.focusedBodyId)
        (idlePolar3 cfg0 env0 inpTab gs0) :=
  ⟨rfl, rfl, c2_obstruction_correct cfg0 env0 inpTab 0 gs0 rfl rfl⟩

/-- C2 counterexample: in `env0` the previously focused body 0 has radius 5
and the newly focused body 1 has radius 1.  The sight line from the camera
at (5,0,0) toward body 1 passes the previous body's center at distance 3,
with the closest point in front.  With the NEW body's radius, as the claim
states it, 3 is not within 1.1 x 1, so the claim demands the target polar
coordinates stay at the current view polar (0,0,5); but the code compares 3
against 1.1 x 5 = 5.5 and applies the tangent shift, producing a target
whose distance exceeds 5. -/
theorem c2_counterexample :
    chooseNextBody env0 gs0.focusedBodyId (!inpTab.shiftHeld) = 1 ∧
    bodyRadius env0 1 = 1 ∧
    idlePolar3 cfg0 env0 inpTab gs0 = ⟨0, 0, 5⟩ ∧
    idleRelViewPos cfg0 env0 inpTab gs0 = ⟨5, 0, 0⟩ ∧
    specObstructionTarget 1 (⟨5, 0, 0⟩ : Vec3) (bodyPos env0 1 - bodyPos env0 0)
      (⟨0, 0, 5⟩ : Vec3) = ⟨0, 0, 5⟩ ∧
    (stepCam cfg0 env0 inpTab 0 gs0).switchNewViewPolar ≠ (⟨0, 0, 5⟩ : Vec3) := by
  have hM := maxVerticalAngle_pos
  have hsp1 : idleSpeed1 cfg0 inpTab gs0 = 0 := rfl
  have hpol1 : idlePolar1 cfg0 env0 inpTab gs0 = ⟨0, 0, 5⟩ := by
    simp only [idlePolar1, hsp1]
    ext <;> simp [gs0]
  have hy3 : idleY3 cfg0 env0 inpTab gs0 = 0 := by
    simp only [idleY3, hpol1]
    rw [if_neg (not_lt.mpr hM.le), if_neg (not_lt.mpr (by linarith))]
  have hz3 : idleZ3 cfg0 env0 inpTab gs0 = 5 := by
    simp only [idleZ3, hpol1]
    have hrad0 : bodyRadius env0 gs0.focusedBodyId = 5 := rfl
    rw [hrad0, if_neg (lt_irrefl 5)]
  have hpolar3 : idlePolar3 cfg0 env0 inpTab gs0 = ⟨0, 0, 5⟩ := by
    simp only [idlePolar3]
    rw [hpol1, hy3, hz3]
  have hrel : idleRelViewPos cfg0 env0 inpTab gs0 = ⟨5, 0, 0⟩ := by
    simp only [idleRelViewPos]
    rw [hz3, hpolar3]
    ext <;> simp [polarToCartesian]
  have hd1 : (⟨-7, 9, 0⟩ : Vec3) - ⟨5, 0, 0⟩ = ⟨-12, 9, 0⟩ := by
    ext <;> simp <;> norm_num
  have hn1 : (⟨-12, 9, 0⟩ : Vec3).norm = 15 := by
    show Real.sqrt ((-12) * (-12) + 9 * 9 + 0 * 0) = 15
    exact sqrt_eval (by norm_num) (by norm_num)
  have hnd : (⟨-12, 9, 0⟩ : Vec3).normalize = ⟨-4 / 5, 3 / 5, 0⟩ := by
    simp only [Vec3.normalize, hn1]
    ext <;> simp <;> norm_num
  have hdot : (⟨5, 0, 0⟩ : Vec3).dot ⟨-4 / 5, 3 / 5, 0⟩ = -4 := by
    show (5 : ℝ) * (-4 / 5) + 0 * (3 / 5) + 0 * 0 = -4
    norm_num
  have hsubcp : (⟨5, 0, 0⟩ : Vec3) - (-4 : ℝ) • ⟨-4 / 5, 3 / 5, 0⟩ = ⟨9 / 5, 12 / 5, 0⟩ := by
    ext <;> simp <;> norm_num
  have haddcp : (⟨5, 0, 0⟩ : Vec3) + -(-4 : ℝ) • ⟨-4 / 5, 3 / 5, 0⟩ = ⟨9 / 5, 12 / 5, 0⟩ := by
    ext <;> simp <;> norm_num
  have hcpn : (⟨9 / 5, 12 / 5, 0⟩ : Vec3).norm = 3 := by
    show Real.sqrt (9 / 5 * (9 / 5) + 12 / 5 * (12 / 5) + 0 * 0) = 3
    exact sqrt_eval (by norm_num) (by norm_num)
  have htan : (⟨9 / 5, 12 / 5, 0⟩ : Vec3).normalize = ⟨3 / 5, 4 / 5, 0⟩ := by
    simp only [Vec3.normalize, hcpn]
    ext <;> simp <;> norm_num
  have htcd : ((⟨-7, 9, 0⟩ : Vec3) - ((5 : ℝ) * 1.1) • ⟨3 / 5, 4 / 5, 0⟩).norm =
      Real.sqrt 127.25 := by
    show Real.sqrt ((-7 - 5 * 1.1 * (3 / 5)) * (-7 - 5 * 1.1 * (3 / 5)) +
      (9 - 5 * 1.1 * (4 / 5)) * (9 - 5 * 1.1 * (4 / 5)) +
      (0 - 5 * 1.1 * 0) * (0 - 5 * 1.1 * 0)) = Real.sqrt 127.25
    congr 1
    norm_num
  have hptc5 : (⟨0, 0, 5⟩ : Vec3).z •
      polarToCartesian ⟨(⟨0, 0, 5⟩ : Vec3).x, (⟨0, 0, 5⟩ : Vec3).y⟩ = ⟨5, 0, 0⟩ := by
    ext <;> simp [polarToCartesian]
  have htarget : bodyPos env0 1 - bodyPos env0 0 = ⟨-7, 9, 0⟩ := by
    ext <;> simp [bodyPos, env0, bodyDefault] <;> norm_num
  have hspec : specObstructionTarget 1 (⟨5, 0, 0⟩ : Vec3) (bodyPos env0 1 - bodyPos env0 0)
      (⟨0, 0, 5⟩ : Vec3) = ⟨0, 0, 5⟩ := by
    rw [htarget]
    simp only [specObstructionTarget]
    rw [hd1, hnd, hdot]
    rw [if_neg]
    rintro ⟨-, hlt⟩
    rw [haddcp, hcpn] at hlt
    norm_num at hlt
  have hfid : gs0.focusedBodyId = 0 := rfl
  have hcode : (stepCam cfg0 env0 inpTab 0 gs0).switchNewViewPolar =
      switchTargetPolar 5 ⟨5, 0, 0⟩ ⟨-7, 9, 0⟩ ⟨0, 0, 5⟩ := by
    rw [stepCam_idle rfl]
    show (updateIdle cfg0 env0 inpTab gs0).switchNewViewPolar = _
    rw [(updateIdle_tab cfg0 env0 inpTab gs0 rfl).2.2.2.2.2]
    rw [hrel, hpolar3, hfid]
    rw [show bodyRadius env0 0 = (5 : ℝ) from rfl]
    rw [show chooseNextBody env0 0 (!inpTab.shiftHeld) = 1 from rfl]
    rw [htarget]
  have hq : (0 : ℝ) < Real.sqrt 127.25 := Real.sqrt_pos.mpr (by norm_num)
  have hcodez : 5 < (switchTargetPolar 5 (⟨5, 0, 0⟩ : Vec3) ⟨-7, 9, 0⟩ ⟨0, 0, 5⟩).z := by
    simp only [switchTargetPolar]
    rw [hd1, hnd, hdot]
    rw [if_pos (by norm_num : (-4 : ℝ) < 0)]
    rw [hsubcp, hcpn]
    rw [if_pos (by norm_num : (3 : ℝ) < 5 * 1.1)]
    rw [htan, hn1, htcd, hptc5]
    show 5 < ((⟨5, 0, 0⟩ : Vec3) +
      (15 * (5 * 1.1 - 3) / Real.sqrt 127.25) • ⟨3 / 5, 4 / 5, 0⟩).norm
    set c := 15 * (5 * 1.1 - 3) / Real.sqrt 127.25 with hc
    have hcpos : 0 < c := by
      rw [hc]
      exact div_pos (by norm_num) hq
    show 5 < Real.sqrt ((5 + c * (3 / 5)) * (5 + c * (3 / 5)) +
      (0 + c * (4 / 5)) * (0 + c * (4 / 5)) + (0 + c * 0) * (0 + c * 0))
    have harg : (5 + c * (3 / 5)) * (5 + c * (3 / 5)) +
        (0 + c * (4 / 5)) * (0 + c * (4 / 5)) + (0 + c * 0) * (0 + c * 0) =
        25 + 6 * c + c ^ 2 := by
      ring
    rw [harg]
    have h1 : Real.sqrt 25 < Real.sqrt (25 + 6 * c + c ^ 2) :=
      Real.sqrt_lt_sqrt (by norm_num) (by nlinarith)
    rw [sqrt_eval (by norm_num : (0 : ℝ) ≤ 5) (by norm_num : (25 : ℝ) = 5 ^ 2)] at h1
    exact h1
  refine ⟨rfl, rfl, hpolar3, hrel, hspec, ?_⟩
  intro heq
  rw [hcode] at heq
  have hzz : (switchTargetPolar 5 (⟨5, 0, 0⟩ : Vec3) ⟨-7, 9, 0⟩ ⟨0, 0, 5⟩).z = 5 :=
    congrArg Vec3.z heq
  rw [hzz] at hcodez
  exact lt_irrefl 5 hcodez

/-! ### C4: running a focus switch to completion -/

/-- The camera looks at the point `p`: the vector from the camera to `p` is a
positive multiple of the aim direction. -/
def aimedAt (p : Vec3) (s : GState) : Prop :=
  ∃ c : ℝ, 0 < c ∧ p - s.viewPos = c • s.viewDirF

/-- Invariant of the TRACK phase during a switch run: ids fixed, phase timer
within its duration, and both the frozen and the target polar distances
nonnegative and bounded by `zm`. -/
def trackInv (pid fid : ℕ) (zm : ℝ) (s : GState) : Prop :=
  s.switchPhase = SwitchPhase.TRACK ∧
  s.switchPreviousBodyId = pid ∧ s.focusedBodyId = fid ∧
  0 ≤ s.switchTime ∧ s.switchTime ≤ 1 ∧
  0 ≤ s.viewPolar.z ∧ s.viewPolar.z ≤ zm ∧
  0 ≤ s.switchNewViewPolar.z ∧ s.switchNewViewPolar.z ≤ zm

/-- Invariant of the MOVE phase during a switch run. -/
def moveInv (pid fid : ℕ) (zm : ℝ) (s : GState) : Prop :=
  s.switchPhase = SwitchPhase.MOVE ∧
  s.switchPreviousBodyId = pid ∧ s.focusedBodyId = fid ∧
  0 ≤ s.switchTime ∧ s.switchTime ≤ 1 ∧
  0 ≤ s.viewPolar.z ∧ s.viewPolar.z ≤ zm

/-- Invariant after the switch has completed: back in IDLE, pan and velocity
zeroed, positive distance, aimed at the new focused body. -/
def idleInv (env : Env) (fid : ℕ) (s : GState) : Prop :=
  s.switchPhase = SwitchPhase.IDLE ∧
  s.focusedBodyId = fid ∧
  s.panPolar = 0 ∧ s.viewSpeed = 0 ∧
  0 < s.viewPolar.z ∧
  aimedAt (bodyPos env fid) s

theorem updateTrack_complete {env : Env} {dt : ℝ} {s : GState} (h : s.switchTime + dt > 1) :
    (updateTrack env dt s).switchPhase = SwitchPhase.MOVE ∧
    (updateTrack env dt s).switchTime = 0 ∧
    (updateTrack env dt s).viewPolar = trackInterpPolar s ∧
    (updateTrack env dt s).focusedBodyId = s.focusedBodyId ∧
    (updateTrack env dt s).switchPreviousBodyId = s.switchPreviousBodyId := by
  simp only [updateTrack]
  rw [if_pos h]
  exact ⟨rfl, rfl, rfl, rfl, rfl⟩

theorem updateTrack_continue {env : Env} {dt : ℝ} {s : GState} (h : ¬(s.switchTime + dt > 1)) :
    (updateTrack env dt s).switchPhase = s.switchPhase ∧
    (updateTrack env dt s).switchTime = s.switchTime + dt ∧
    (updateTrack env dt s).viewPolar = s.viewPolar ∧
    (updateTrack env dt s).switchNewViewPolar = s.switchNewViewPolar ∧
    (updateTrack env dt s).focusedBodyId = s.focusedBodyId ∧
    (updateTrack env dt s).switchPreviousBodyId = s.switchPreviousBodyId := by
  simp only [updateTrack]
  rw [if_neg h]
  exact ⟨rfl, rfl, rfl, rfl, rfl, rfl⟩

theorem updateMove_complete {env : Env} {dt : ℝ} {s : GState} (h : s.switchTime + dt > 1) :
    (updateMove env dt s).switchPhase = SwitchPhase.IDLE ∧
    (updateMove env dt s).switchTime = 0 ∧
    (updateMove env dt s).viewPolar.z = moveTargetDist env s ∧
    (updateMove env dt s).panPolar = 0 ∧
    (updateMove env dt s).viewSpeed = 0 ∧
    (updateMove env dt s).viewPos = moveViewPos env s ∧
    (updateMove env dt s).viewDirF = moveDir env s ∧
    (updateMove env dt s).focusedBodyId = s.focusedBodyId := by
  simp only [updateMove]
  rw [if_pos h]
  exact ⟨rfl, rfl, rfl, rfl, rfl, rfl, rfl, rfl⟩

theorem updateMove_continue {env : Env} {dt : ℝ} {s : GState} (h : ¬(s.switchTime + dt > 1)) :
    (updateMove env dt s).switchPhase = s.switchPhase ∧
    (updateMove env dt s).switchTime = s.switchTime + dt ∧
    (updateMove env dt s).viewPolar = s.viewPolar ∧
    (updateMove env dt s).panPolar = s.panPolar ∧
    (updateMove env dt s).viewSpeed = s.viewSpeed ∧
    (updateMove env dt s).focusedBodyId = s.focusedBodyId ∧
    (updateMove env dt s).switchPreviousBodyId = s.switchPreviousBodyId := by
  simp only [updateMove]
  rw [if_neg h]
  exact ⟨rfl, rfl, rfl, rfl, rfl, rfl, rfl⟩

theorem idleSpeed1_noInput (cfg : Config) (s : GState) :
    idleSpeed1 cfg noInput s = s.viewSpeed := by
  simp [idleSpeed1, noInput]

theorem idlePan1_noInput (cfg : Config) (s : GState) :
    idlePan1 cfg noInput s = s.panPolar := by
  simp [idlePan1, noInput]

theorem idlePolar1_noInput (cfg : Config) (env : Env) (s : GState)
    (hspeed : s.viewSpeed = 0) :
    idlePolar1 cfg env noInput s = ⟨s.viewPolar.x, s.viewPolar.y, s.viewPolar.z⟩ := by
  simp only [idlePolar1, idleSpeed1_noInput, hspeed]
  ext <;> simp

theorem idleZ3_noInput_pos (cfg : Config) (env : Env) (s : GState)
    (hspeed : s.viewSpeed = 0) (hz : 0 < s.viewPolar.z) :
    0 < idleZ3 cfg env noInput s := by
  simp only [idleZ3, idlePolar1_noInput cfg env s hspeed]
  split_ifs with h
  · linarith
  · exact hz

theorem idleSpeed3_noInput (cfg : Config) (env : Env) (s : GState)
    (hspeed : s.viewSpeed = 0) :
    idleSpeed3 cfg env noInput s = 0 := by
  have h1 := idleSpeed1_noInput cfg s
  ext
  · show cfg.viewSmoothness * (idleSpeed1 cfg noInput s).x = (0 : Vec3).x
    rw [h1, hspeed]
    simp
  · show idleSpeedY3 cfg env noInput s = (0 : Vec3).y
    simp only [idleSpeedY3, h1, hspeed]
    split_ifs <;> simp
  · show cfg.viewSmoothness * (idleSpeed1 cfg noInput s).z = (0 : Vec3).z
    rw [h1, hspeed]
    simp

theorem idlePan3_noInput (cfg : Config) (env : Env) (s : GState)
    (hpan : s.panPolar = 0) :
    idlePan3 cfg env noInput s = 0 := by
  have h1 := idlePan1_noInput cfg s
  have hy := idleY3_bounds cfg env noInput s
  ext
  · show (idlePan1 cfg noInput s).x = (0 : Vec2).x
    rw [h1, hpan]
  · show idlePanY3 cfg env noInput s = (0 : Vec2).y
    simp only [idlePanY3, h1, hpan, Vec2.snd_zero]
    rw [if_neg (show ¬(maxVerticalAngle < idleY3 cfg env noInput s + 0) from by
      rw [add_zero]; exact not_lt.mpr hy.2)]
    rw [if_neg (show ¬(idleY3 cfg env noInput s + 0 < -maxVerticalAngle) from by
      rw [add_zero]; exact not_lt.mpr hy.1)]

theorem idleViewDirF_noInput (cfg : Config) (env : Env) (s : GState)
    (hpan : s.panPolar = 0) :
    idleViewDirF cfg env noInput s =
      -(polarToCartesian
        ⟨(idlePolar3 cfg env noInput s).x, (idlePolar3 cfg env noInput s).y⟩) := by
  simp only [idleViewDirF, idlePan3_noInput cfg env s hpan, Vec2.fst_zero, Vec2.snd_zero, add_zero]

/-- A no-input IDLE frame keeps the post-switch invariant: pan and velocity
stay zero, the phase and focus stay, the distance stays positive, and the
camera is aimed at the focused body (position and orientation are both
recomputed from the same polar coordinates). -/
theorem idleInv_step (cfg : Config) (env : Env) (dt : ℝ) (fid : ℕ) (s : GState)
    (h : idleInv env fid s) : idleInv env fid (stepCam cfg env noInput dt s) := by
  obtain ⟨hphase, hfid, hpan, hspeed, hz, -⟩ := h
  rw [stepCam_idle hphase]
  have hnotab := updateIdle_no_tab cfg env noInput s rfl
  refine ⟨?_, ?_, ?_, ?_, ?_, ?_⟩
  · show (updateIdle cfg env noInput s).switchPhase = SwitchPhase.IDLE
    rw [hnotab.1, hphase]
  · show (updateIdle cfg env noInput s).focusedBodyId = fid
    rw [hnotab.2.1, hfid]
  · show (updateIdle cfg env noInput s).panPolar = 0
    rw [updateIdle_panPolar]
    exact idlePan3_noInput cfg env s hpan
  · show (updateIdle cfg env noInput s).viewSpeed = 0
    rw [updateIdle_viewSpeed]
    exact idleSpeed3_noInput cfg env s hspeed
  · show 0 < (updateIdle cfg env noInput s).viewPolar.z
    rw [updateIdle_viewPolar]
    exact idleZ3_noInput_pos cfg env s hspeed hz
  · show aimedAt (bodyPos env fid) { updateIdle cfg env noInput s with
      preMouseX := noInput.posX, preMouseY := noInput.posY }
    refine ⟨idleZ3 cfg env noInput s, idleZ3_noInput_pos cfg env s hspeed hz, ?_⟩
    show bodyPos env fid - (updateIdle cfg env noInput s).viewPos =
      idleZ3 cfg env noInput s • (updateIdle cfg env noInput s).viewDirF
    rw [updateIdle_viewPos, updateIdle_viewDirF, idleViewDirF_noInput cfg env s hpan, hfid]
    simp only [idleRelViewPos]
    ext <;> simp [polarToCartesian] <;> ring

theorem trackInterpPolar_z_bounds {zm : ℝ} (s : GState)
    (h0 : 0 ≤ s.switchTime) (hz0 : 0 ≤ s.viewPolar.z) (hz0m : s.viewPolar.z ≤ zm)
    (hz1 : 0 ≤ s.switchNewViewPolar.z) (hz1m : s.switchNewViewPolar.z ≤ zm) :
    0 ≤ (trackInterpPolar s).z ∧ (trackInterpPolar s).z ≤ zm := by
  have ht0 : 0 ≤ min 1 (s.switchTime / 1) := le_min (by norm_num) (by linarith)
  have ht1 : min 1 (s.switchTime / 1) ≤ 1 := min_le_left _ _
  have hf := ease_mem_unit ht0 ht1
  have hshow : (trackInterpPolar s).z =
      (1 - ease (min 1 (s.switchTime / 1))) * s.viewPolar.z +
        ease (min 1 (s.switchTime / 1)) * s.switchNewViewPolar.z := rfl
  rw [hshow]
  constructor
  · have := mul_nonneg (by linarith [hf.2] : (0:ℝ) ≤ 1 - ease (min 1 (s.switchTime / 1))) hz0
    have := mul_nonneg hf.1 hz1
    linarith
  · nlinarith [hf.1, hf.2, mul_le_mul_of_nonneg_left hz0m
      (by linarith [hf.2] : (0:ℝ) ≤ 1 - ease (min 1 (s.switchTime / 1))),
      mul_le_mul_of_nonneg_left hz1m hf.1]

theorem trackInv_step (cfg : Config) (env : Env) (pid fid : ℕ) (zm dt : ℝ) (s : GState)
    (h : trackInv pid fid zm s) (hdt : 0 ≤ dt) :
    (¬(s.switchTime + dt > 1) →
      trackInv pid fid zm (stepCam cfg env noInput dt s) ∧
      (stepCam cfg env noInput dt s).switchTime = s.switchTime + dt) ∧
    (s.switchTime + dt > 1 →
      moveInv pid fid zm (stepCam cfg env noInput dt s) ∧
      (stepCam cfg env noInput dt s).switchTime = 0) := by
  obtain ⟨hphase, hpid, hfid, h0, h1, hz0, hz0m, hz1, hz1m⟩ := h
  rw [stepCam_track hphase]
  constructor
  · intro hc
    have hk := @updateTrack_continue env dt s hc
    have hle : s.switchTime + dt ≤ 1 := not_lt.mp hc
    refine ⟨⟨?_, ?_, ?_, ?_, ?_, ?_, ?_, ?_, ?_⟩, ?_⟩
    · show (updateTrack env dt s).switchPhase = _
      rw [hk.1, hphase]
    · show (updateTrack env dt s).switchPreviousBodyId = pid
      rw [hk.2.2.2.2.2, hpid]
    · show (updateTrack env dt s).focusedBodyId = fid
      rw [hk.2.2.2.2.1, hfid]
    · show 0 ≤ (updateTrack env dt s).switchTime
      rw [hk.2.1]
      linarith
    · show (updateTrack env dt s).switchTime ≤ 1
      rw [hk.2.1]
      exact hle
    · show 0 ≤ (updateTrack env dt s).viewPolar.z
      rw [hk.2.2.1]
      exact hz0
    · show (updateTrack env dt s).viewPolar.z ≤ zm
      rw [hk.2.2.1]
      exact hz0m
    · show 0 ≤ (updateTrack env dt s).switchNewViewPolar.z
      rw [hk.2.2.2.1]
      exact hz1
    · show (updateTrack env dt s).switchNewViewPolar.z ≤ zm
      rw [hk.2.2.2.1]
      exact hz1m
    · show (updateTrack env dt s).switchTime = s.switchTime + dt
      exact hk.2.1
  · intro hc
    have hk := @updateTrack_complete env dt s hc
    have hzb := trackInterpPolar_z_bounds s h0 hz0 hz0m hz1 hz1m
    refine ⟨⟨?_, ?_, ?_, ?_, ?_, ?_, ?_⟩, ?_⟩
    · show (updateTrack env dt s).switchPhase = _
      rw [hk.1]
    · show (updateTrack env dt s).switchPreviousBodyId = pid
      rw [hk.2.2.2.2, hpid]
    · show (updateTrack env dt s).focusedBodyId = fid
      rw [hk.2.2.2.1, hfid]
    · show 0 ≤ (updateTrack env dt s).switchTime
      rw [hk.2.1]
    · show (updateTrack env dt s).switchTime ≤ 1
      rw [hk.2.1]
      norm_num
    · show 0 ≤ (updateTrack env dt s).viewPolar.z
      rw [hk.2.2.1]
      exact hzb.1
    · show (updateTrack env dt s).viewPolar.z ≤ zm
      rw [hk.2.2.1]
      exact hzb.2
    · show (updateTrack env dt s).switchTime = 0
      exact hk.2.1

theorem moveInv_step (cfg : Config) (env : Env) (pid fid : ℕ) (zm dt : ℝ) (s : GState)
    (h : moveInv pid fid zm s) (hdt : 0 ≤ dt)
    (hD : zm < (bodyPos env fid - bodyPos env pid).norm) :
    (¬(s.switchTime + dt > 1) →
      moveInv pid fid zm (stepCam cfg env noInput dt s) ∧
      (stepCam cfg env noInput dt s).switchTime = s.switchTime + dt) ∧
    (s.switchTime + dt > 1 → idleInv env fid (stepCam cfg env noInput dt s)) := by
  obtain ⟨hphase, hpid, hfid, h0, h1, hz0, hz0m⟩ := h
  rw [stepCam_move hphase]
  constructor
  · intro hc
    have hk := @updateMove_continue env dt s hc
    have hle : s.switchTime + dt ≤ 1 := not_lt.mp hc
    refine ⟨⟨?_, ?_, ?_, ?_, ?_, ?_, ?_⟩, ?_⟩
    · show (updateMove env dt s).switchPhase = _
      rw [hk.1, hphase]
    · show (updateMove env dt s).switchPreviousBodyId = pid
      rw [hk.2.2.2.2.2.2, hpid]
    · show (updateMove env dt s).focusedBodyId = fid
      rw [hk.2.2.2.2.2.1, hfid]
    · show 0 ≤ (updateMove env dt s).switchTime
      rw [hk.2.1]
      linarith
    · show (updateMove env dt s).switchTime ≤ 1
      rw [hk.2.1]
      exact hle
    · show 0 ≤ (updateMove env dt s).viewPolar.z
      rw [hk.2.2.1]
      exact hz0
    · show (updateMove env dt s).viewPolar.z ≤ zm
      rw [hk.2.2.1]
      exact hz0m
    · show (updateMove env dt s).switchTime = s.switchTime + dt
      exact hk.2.1
  · intro hc
    have hk := @updateMove_complete env dt s hc
    have hdistpos : (0:ℝ) < moveTargetDist env s :=
      lt_of_lt_of_le (by norm_num) (le_max_right _ _)
    have hw : bodyPos env s.focusedBodyId - moveSourcePos env s ≠ 0 := by
      intro h0v
      have heq : bodyPos env s.focusedBodyId - bodyPos env s.switchPreviousBodyId =
          s.viewPolar.z • polarToCartesian ⟨s.viewPolar.x, s.viewPolar.y⟩ := by
        have hx := congrArg Vec3.x h0v
        have hy := congrArg Vec3.y h0v
        have hz := congrArg Vec3.z h0v
        simp only [moveSourcePos, Vec3.sub_x, Vec3.sub_y, Vec3.sub_z, Vec3.add_x, Vec3.add_y,
          Vec3.add_z, Vec3.smul_x, Vec3.smul_y, Vec3.smul_z, Vec3.zero_x, Vec3.zero_y,
          Vec3.zero_z] at hx hy hz
        ext <;> simp <;> linarith
      have hnorm := congrArg Vec3.norm heq
      rw [Vec3.norm_smul, polarToCartesian_norm, mul_one, abs_of_nonneg hz0] at hnorm
      rw [hfid, hpid] at hnorm
      linarith
    have hfact : bodyPos env s.focusedBodyId - moveSourcePos env s =
        (bodyPos env s.focusedBodyId - moveSourcePos env s).norm • moveDir env s :=
      (Vec3.norm_smul_normalize _ hw).symm
    have hwpos : 0 < (bodyPos env s.focusedBodyId - moveSourcePos env s).norm :=
      Vec3.norm_pos_of_ne_zero hw
    have ht0 : 0 ≤ min 1 (s.switchTime / 1) := le_min (by norm_num) (by linarith)
    have ht1 : min 1 (s.switchTime / 1) ≤ 1 := min_le_left _ _
    have hf := ease2_mem_unit ht0 ht1
    have hcpos : 0 < ease2 (min 1 (s.switchTime / 1)) 4 * moveTargetDist env s +
        (1 - ease2 (min 1 (s.switchTime / 1)) 4) *
          (bodyPos env s.focusedBodyId - moveSourcePos env s).norm := by
      rcases eq_or_lt_of_le hf.1 with hfz | hfz
      · rw [← hfz]
        simpa using hwpos
      · have h1t : 0 ≤ 1 - ease2 (min 1 (s.switchTime / 1)) 4 := by linarith [hf.2]
        have := mul_nonneg h1t (le_of_lt hwpos)
        nlinarith
    have key : bodyPos env s.focusedBodyId - moveViewPos env s =
        (ease2 (min 1 (s.switchTime / 1)) 4 * moveTargetDist env s +
          (1 - ease2 (min 1 (s.switchTime / 1)) 4) *
            (bodyPos env s.focusedBodyId - moveSourcePos env s).norm) • moveDir env s := by
      have hwx := congrArg Vec3.x hfact
      have hwy := congrArg Vec3.y hfact
      have hwz := congrArg Vec3.z hfact
      simp only [Vec3.sub_x, Vec3.sub_y, Vec3.sub_z, Vec3.smul_x, Vec3.smul_y,
        Vec3.smul_z] at hwx hwy hwz
      simp only [moveViewPos, moveTargetPos]
      ext <;> simp only [Vec3.sub_x, Vec3.sub_y, Vec3.sub_z, Vec3.add_x, Vec3.add_y,
        Vec3.add_z, Vec3.smul_x, Vec3.smul_y, Vec3.smul_z]
      · linear_combination (1 - ease2 (min 1 (s.switchTime / 1)) 4) * hwx
      · linear_combination (1 - ease2 (min 1 (s.switchTime / 1)) 4) * hwy
      · linear_combination (1 - ease2 (min 1 (s.switchTime / 1)) 4) * hwz
    refine ⟨?_, ?_, ?_, ?_, ?_, ?_⟩
    · show (updateMove env dt s).switchPhase = _
      rw [hk.1]
    · show (updateMove env dt s).focusedBodyId = fid
      rw [hk.2.2.2.2.2.2.2, hfid]
    · show (updateMove env dt s).panPolar = 0
      exact hk.2.2.2.1
    · show (updateMove env dt s).viewSpeed = 0
      exact hk.2.2.2.2.1
    · show 0 < (updateMove env dt s).viewPolar.z
      rw [hk.2.2.1]
      exact hdistpos
    · refine ⟨ease2 (min 1 (s.switchTime / 1)) 4 * moveTargetDist env s +
        (1 - ease2 (min 1 (s.switchTime / 1)) 4) *
          (bodyPos env s.focusedBodyId - moveSourcePos env s).norm, hcpos, ?_⟩
      show bodyPos env fid - (updateMove env dt s).viewPos =
        _ • (updateMove env dt s).viewDirF
      rw [hk.2.2.2.2.2.1, hk.2.2.2.2.2.2.1, ← hfid]
      exact key

/-- Core run lemma: from a freshly-triggered TRACK state, once some prefix of
the frame times exceeds the TRACK duration and the remaining frames exceed
the MOVE duration, the run ends in the post-switch IDLE invariant (and stays
there through any further input-free frames). -/
theorem camRun_to_idle (cfg : Config) (env : Env) (pid fid : ℕ) (zm : ℝ)
    (hD : zm < (bodyPos env fid - bodyPos env pid).norm) :
    ∀ (dts : List ℝ) (s : GState), (∀ d ∈ dts, 0 ≤ d) →
    ((trackInv pid fid zm s ∧
        ∃ t1 t2, dts = t1 ++ t2 ∧ 1 < s.switchTime + t1.sum ∧ 1 < t2.sum) ∨
     (moveInv pid fid zm s ∧ 1 < s.switchTime + dts.sum) ∨
     idleInv env fid s) →
    idleInv env fid (camRun cfg env dts s) := by
  intro dts
  induction dts with
  | nil =>
    intro s _ h
    have hrun : camRun cfg env [] s = s := rfl
    rw [hrun]
    rcases h with ⟨hA, t1, t2, hsplit, hs1, hs2⟩ | ⟨hB, hs1⟩ | hC
    · exfalso
      have ht2 : t2 = [] := (List.append_eq_nil.mp hsplit.symm).2
      rw [ht2] at hs2
      simp at hs2
      linarith
    · exfalso
      simp at hs1
      linarith [hB.2.2.2.2.1]
    · exact hC
  | cons d ds ih =>
    intro s hnn h
    have hd : 0 ≤ d := hnn d (List.mem_cons_self d ds)
    have hnn' : ∀ x ∈ ds, 0 ≤ x := fun x hx => hnn x (List.mem_cons_of_mem d hx)
    have hrun : camRun cfg env (d :: ds) s =
        camRun cfg env ds (stepCam cfg env noInput d s) := rfl
    rw [hrun]
    apply ih _ hnn'
    rcases h with ⟨hA, t1, t2, hsplit, hs1, hs2⟩ | ⟨hB, hs1⟩ | hC
    · rcases t1 with _ | ⟨e, t1x⟩
      · exfalso
        simp at hs1
        linarith [hA.2.2.2.2.1]
      · rw [List.cons_append] at hsplit
        injection hsplit with he hds
        by_cases hc : s.switchTime + d > 1
        · right
          left
          have hk := (trackInv_step cfg env pid fid zm d s hA hd).2 hc
          refine ⟨hk.1, ?_⟩
          rw [hk.2]
          have hsum : ds.sum = t1x.sum + t2.sum := by
            rw [hds, List.sum_append]
          have ht1nn : 0 ≤ t1x.sum := List.sum_nonneg fun x hx =>
            hnn' x (by rw [hds]; exact List.mem_append_left _ hx)
          linarith
        · left
          have hk := (trackInv_step cfg env pid fid zm d s hA hd).1 hc
          refine ⟨hk.1, t1x, t2, hds, ?_, hs2⟩
          rw [hk.2]
          rw [List.sum_cons, ← he] at hs1
          linarith
    · by_cases hc : s.switchTime + d > 1
      · right
        right
        exact (moveInv_step cfg env pid fid zm d s hB hd hD).2 hc
      · right
        left
        have hk := (moveInv_step cfg env pid fid zm d s hB hd hD).1 hc
        refine ⟨hk.1, ?_⟩
        rw [hk.2]
        rw [List.sum_cons] at hs1
        linarith
    · right
      right
      exact idleInv_step cfg env d fid s hC

/-- Concrete just-triggered TRACK state: previous body 0, new focused body 1,
frozen and target polar distances both 5, phase timer 0. -/
noncomputable def gsTrack : GState :=
  ⟨⟨0, 0, 5⟩, 0, 0, ⟨5, 0, 0⟩, ⟨-1, 0, 0⟩, SwitchPhase.TRACK, 0, ⟨0, 0, 5⟩, ⟨-1, 0, 0⟩,
    1, 0, 0, 0, 1, false, 0, 0, 1⟩

/-- C4 counterexample: from the just-triggered state `gsTrack`, two frames of
1 time-unit each (elapsed times summing to exactly 2, i.e. at least two full
phase durations) leave the machine in MOVE, not IDLE: the transitions use
strict comparison and a single frame advances only the current phase. -/
theorem c4_counterexample :
    (1 : ℝ) + 1 = 2 ∧
    gsTrack.switchPhase = SwitchPhase.TRACK ∧ gsTrack.switchTime = 0 ∧
    (camRun cfg0 env0 [1, 1] gsTrack).switchPhase = SwitchPhase.MOVE ∧
    (camRun cfg0 env0 [1, 1] gsTrack).switchPhase ≠ SwitchPhase.IDLE := by
  have hrun : camRun cfg0 env0 [1, 1] gsTrack =
      stepCam cfg0 env0 noInput 1 (stepCam cfg0 env0 noInput 1 gsTrack) := rfl
  have hc1 : ¬(gsTrack.switchTime + 1 > 1) := by
    norm_num [gsTrack]
  have hs1p : (stepCam cfg0 env0 noInput 1 gsTrack).switchPhase = SwitchPhase.TRACK := by
    rw [stepCam_track rfl]
    show (updateTrack env0 1 gsTrack).switchPhase = _
    rw [(@updateTrack_continue env0 1 gsTrack hc1).1]
    rfl
  have hs1t : (stepCam cfg0 env0 noInput 1 gsTrack).switchTime = 1 := by
    rw [stepCam_track rfl]
    show (updateTrack env0 1 gsTrack).switchTime = 1
    rw [(@updateTrack_continue env0 1 gsTrack hc1).2.1]
    norm_num [gsTrack]
  have hs2 : (stepCam cfg0 env0 noInput 1
      (stepCam cfg0 env0 noInput 1 gsTrack)).switchPhase = SwitchPhase.MOVE := by
    rw [stepCam_track hs1p]
    show (updateTrack env0 1 (stepCam cfg0 env0 noInput 1 gsTrack)).switchPhase = _
    exact (@updateTrack_complete env0 1 (stepCam cfg0 env0 noInput 1 gsTrack)
      (by rw [hs1t]; norm_num)).1
  refine ⟨by norm_num, rfl, rfl, by rw [hrun]; exact hs2, ?_⟩
  rw [hrun, hs2]
  simp

/-- C4 (amended): from a state just triggered into TRACK, an input-free run
whose nonnegative frame times split into a prefix summing to strictly more
than one phase duration (finishing TRACK) followed by frames summing to
strictly more than one phase duration (finishing MOVE) always returns the
machine to IDLE with the pan offset and drag velocity zeroed and the camera
aimed at the new focused body; the geometric side conditions say the two
bodies are farther apart than the camera's polar distances, so the aim
direction is well defined throughout. -/
theorem c4_switch_cycle (cfg : Config) (env : Env) (dts : List ℝ) (s : GState)
    (hphase : s.switchPhase = SwitchPhase.TRACK)
    (hst : s.switchTime = 0)
    (hz0 : 0 ≤ s.viewPolar.z) (hz1 : 0 ≤ s.switchNewViewPolar.z)
    (hD : max s.viewPolar.z s.switchNewViewPolar.z <
      (bodyPos env s.focusedBodyId - bodyPos env s.switchPreviousBodyId).norm)
    (hnn : ∀ d ∈ dts, 0 ≤ d)
    (hsplit : ∃ t1 t2, dts = t1 ++ t2 ∧ 1 < t1.sum ∧ 1 < t2.sum) :
    (camRun cfg env dts s).switchPhase = SwitchPhase.IDLE ∧
    (camRun cfg env dts s).panPolar = 0 ∧
    (camRun cfg env dts s).viewSpeed = 0 ∧
    aimedAt (bodyPos env s.focusedBodyId) (camRun cfg env dts s) := by
  obtain ⟨t1, t2, hts, h1, h2⟩ := hsplit
  have h := camRun_to_idle cfg env s.switchPreviousBodyId s.focusedBodyId
    (max s.viewPolar.z s.switchNewViewPolar.z) hD dts s hnn
    (Or.inl ⟨⟨hphase, rfl, rfl, by simp [hst], by norm_num [hst], hz0,
      le_max_left _ _, hz1, le_max_right _ _⟩,
      t1, t2, hts, by rw [hst, zero_add]; exact h1, h2⟩)
  exact ⟨h.1, h.2.2.1, h.2.2.2.1, h.2.2.2.2.2⟩

/-- C4 witness: the amended theorem applied to `gsTrack` in `env0` with the
frame times 0.6, 0.6, 0.7, 0.7 (TRACK finished by the first two frames, MOVE
by the last two). -/
theorem c4_switch_cycle_witness :
    gsTrack.switchPhase = SwitchPhase.TRACK ∧ gsTrack.switchTime = 0 ∧
    ((camRun cfg0 env0 [0.6, 0.6, 0.7, 0.7] gsTrack).switchPhase = SwitchPhase.IDLE ∧
     (camRun cfg0 env0 [0.6, 0.6, 0.7, 0.7] gsTrack).panPolar = 0 ∧
     (camRun cfg0 env0 [0.6, 0.6, 0.7, 0.7] gsTrack).viewSpeed = 0 ∧
     aimedAt (bodyPos env0 gsTrack.focusedBodyId)
       (camRun cfg0 env0 [0.6, 0.6, 0.7, 0.7] gsTrack)) := by
  refine ⟨rfl, rfl, ?_⟩
  refine c4_switch_cycle cfg0 env0 [0.6, 0.6, 0.7, 0.7] gsTrack rfl rfl
    (by norm_num [gsTrack]) (by norm_num [gsTrack]) ?_ ?_
    ⟨[0.6, 0.6], [0.7, 0.7], rfl, by norm_num, by norm_num⟩
  · have h1 : bodyPos env0 gsTrack.focusedBodyId -
        bodyPos env0 gsTrack.switchPreviousBodyId = ⟨-7, 9, 0⟩ := by
      ext <;> simp [bodyPos, env0, bodyDefault, gsTrack] <;> norm_num
    rw [h1]
    have h2 : (⟨-7, 9, 0⟩ : Vec3).norm = Real.sqrt 130 := by
      show Real.sqrt ((-7) * (-7) + 9 * 9 + 0 * 0) = Real.sqrt 130
      congr 1
      norm_num
    rw [h2]
    have h3 : (5 : ℝ) < Real.sqrt 130 := by
      have h4 := Real.sqrt_lt_sqrt (by norm_num : (0:ℝ) ≤ 25) (by norm_num : (25:ℝ) < 130)
      rw [sqrt_eval (by norm_num : (0:ℝ) ≤ 5) (by norm_num : (25:ℝ) = 5 ^ 2)] at h4
      exact h4
    have h5 : max gsTrack.viewPolar.z gsTrack.switchNewViewPolar.z = 5 := by
      norm_num [gsTrack]
    rw [h5]
    exact h3
  · intro x hx
    fin_cases hx <;> norm_num

end Roche
